import Mathlib

/-!
Verification of the content-script core of the pawpaw-form-filler browser
extension (src/content.js): the selector builder, the field extractor and
the mapping applicator, together with the message listener that wraps them.

The DOM is shallowly embedded as a flat list of nodes in document (pre-order)
order; an element is referenced by its index in that list and carries its
structural path (child-index chain from the root).  Browser platform
primitives used by the script (CSS.escape, querySelector / querySelectorAll
over the selector grammar the script emits, Element.closest, JSON.parse,
string coercions) are modelled from their platform specifications; the
script itself is translated function by function.

Modelling conventions, documented once here:
* tag names are stored in their canonical lower-case form;
* JS strings are modelled as Lean strings (sequences of Unicode scalar
  values; lone surrogates are not representable);
* `toLowerCase` is modelled on the ASCII range, which is the only range the
  script's comparisons ("multi_select", "radio", truthy tokens, ...) use;
* JSON numbers are modelled as integers (no fraction/exponent); a number
  with a fraction or exponent makes the modelled JSON.parse fail, which the
  script treats as "keep the original string";
* dispatching the synthetic input/change events does not change the DOM in
  the model (the script only uses them as notifications);
* the browser's automatic un-checking of the other members of a radio group
  when one member is checked is not modelled: the model records exactly the
  writes the script itself performs.
-/

namespace PawPaw

/-! ## JS string primitives -/

/-- Whitespace as recognised by `String.prototype.trim` (ASCII whitespace,
NBSP and the BOM; the remaining exotic Unicode spaces are not modelled). -/
def jsIsWhitespace (c : Char) : Bool :=
  c = ' ' || c = '\t' || c = '\n' || c = '\r' || c.toNat = 0xB || c.toNat = 0xC ||
    c.toNat = 0xA0 || c.toNat = 0xFEFF

/-- Model of `String.prototype.trim` on a character list. -/
def jsTrimList (cs : List Char) : List Char :=
  ((cs.dropWhile jsIsWhitespace).reverse.dropWhile jsIsWhitespace).reverse

/-- Model of `String.prototype.trim`. -/
def jsTrim (s : String) : String :=
  ⟨jsTrimList s.data⟩

/-- Model of `String.prototype.toLowerCase` (ASCII case mapping). -/
def jsToLowerCase (s : String) : String :=
  ⟨s.data.map Char.toLower⟩

/-- List-level `startsWith` used by the multi_select normalization. -/
def listStartsWith (cs : List Char) (c : Char) : Bool :=
  match cs with
  | [] => false
  | d :: _ => d = c

/-- List-level `endsWith` used by the multi_select normalization. -/
def listEndsWith (cs : List Char) (c : Char) : Bool :=
  listStartsWith cs.reverse c

def isAsciiDigitCh (c : Char) : Bool := 48 ≤ c.toNat && c.toNat ≤ 57

def isAsciiAlphaCh (c : Char) : Bool :=
  (97 ≤ c.toNat && c.toNat ≤ 122) || (65 ≤ c.toNat && c.toNat ≤ 90)

def isHexDigitCh (c : Char) : Bool :=
  isAsciiDigitCh c || (97 ≤ c.toNat && c.toNat ≤ 102) || (65 ≤ c.toNat && c.toNat ≤ 70)

def hexVal (c : Char) : Nat :=
  if c.toNat ≤ 57 then c.toNat - 48
  else if c.toNat ≤ 70 then c.toNat - 55
  else c.toNat - 87

/-! ## Numerals (hex for CSS escapes, decimal for nth-of-type indices) -/

/-- Digit characters 0-15, lower-case, as produced by `Number.toString(16)`. -/
def digitCh (m : Nat) : Char :=
  match m with
  | 0 => '0' | 1 => '1' | 2 => '2' | 3 => '3' | 4 => '4'
  | 5 => '5' | 6 => '6' | 7 => '7' | 8 => '8' | 9 => '9'
  | 10 => 'a' | 11 => 'b' | 12 => 'c' | 13 => 'd' | 14 => 'e'
  | _ => 'f'

/-- Digits of `n` in base `b`, most significant first, accumulated onto
`acc`; `fuel` bounds the recursion (any `fuel ≥ n` is exact). -/
def natToBaseAux (b : Nat) : Nat → Nat → List Char → List Char
  | 0, _, acc => acc
  | _, 0, acc => acc
  | fuel + 1, n + 1, acc =>
      natToBaseAux b fuel ((n + 1) / b) (digitCh ((n + 1) % b) :: acc)

/-- Base-`b` numeral of `n` (lower-case digits, no leading zeros). -/
def natToBase (b n : Nat) : List Char :=
  if n = 0 then ['0'] else natToBaseAux b n n []

/-- Model of `Number.prototype.toString(16)` for naturals. -/
def natToHex (n : Nat) : List Char := natToBase 16 n

/-- Decimal numeral, as interpolated by JS template literals. -/
def natToDec (n : Nat) : String := ⟨natToBase 10 n⟩

/-- Value of a digit string in base `b`, starting from `a` (the digit value
function `hexVal` below is correct on both decimal and hex digits). -/
def valFold (b a : Nat) (ds : List Char) : Nat :=
  ds.foldl (fun x c => x * b + hexVal c) a

/-- U+0000 is the single code point `CSS.escape` does not round-trip: it is
serialized as U+FFFD; `nulScrubChar` is that substitution. -/
def nulScrubChar (c : Char) : Char := if c.toNat = 0 then Char.ofNat 0xFFFD else c

def nulScrub (cs : List Char) : List Char := cs.map nulScrubChar

/-! ## CSS.escape (CSSOM serialization of an identifier) -/

/-- Escape of a single code point by `CSS.escape`, given its index `i`, the
first character of the whole string and the string's length (the CSSOM
algorithm is position dependent for digits and a lone dash). -/
def cssEscapeChar (i : Nat) (first : Option Char) (len : Nat) (c : Char) : List Char :=
  if c.toNat = 0 then [(Char.ofNat 0xFFFD)]
  else if (1 ≤ c.toNat && c.toNat ≤ 0x1F) || c.toNat = 0x7F then
    '\\' :: natToHex c.toNat ++ [' ']
  else if i = 0 && isAsciiDigitCh c then
    '\\' :: natToHex c.toNat ++ [' ']
  else if i = 1 && isAsciiDigitCh c && first = some '-' then
    '\\' :: natToHex c.toNat ++ [' ']
  else if i = 0 && len = 1 && c.toNat = 45 then
    ['\\', '-']
  else if c.toNat ≥ 0x80 || c.toNat = 45 || c.toNat = 95 || isAsciiDigitCh c || isAsciiAlphaCh c then
    [c]
  else
    ['\\', c]

/-- Character-list worker for `cssEscape`, tracking the current index. -/
def cssEscapeList (i : Nat) (first : Option Char) (len : Nat) : List Char → List Char
  | [] => []
  | c :: cs => cssEscapeChar i first len c ++ cssEscapeList (i + 1) first len cs

/-- Model of `CSS.escape`. -/
def cssEscape (s : String) : String :=
  ⟨cssEscapeList 0 s.data.head? s.data.length s.data⟩

/-- Character form of a chain of `[name="escaped-value"]` attribute
segments, as the script concatenates them into its selectors. -/
def attrsData : List (String × String) → List Char
  | [] => []
  | a :: more =>
      '[' :: (a.1.data ++ '=' :: '"' :: ((cssEscape a.2).data ++ '"' :: ']' :: attrsData more))

/-- Character form of a `:nth-of-type(k)` suffix. -/
def nthData (k : Nat) : List Char :=
  ':' :: ("nth-of-type".data ++ '(' :: ((natToDec k).data ++ [')']))

/-- Optional `:nth-of-type` suffix of a built selector. -/
def nthTail : Option Nat → List Char
  | none => []
  | some k => nthData k

/-- The `nths` constraints an optional suffix parses to. -/
def nthList : Option Nat → List Nat
  | none => []
  | some k => [k]

/-! ## JS values

Dynamically typed values flowing through the message protocol: the message
itself, the mapping objects and their `value` field (a string by schema, or
an array after the multi_select normalization). -/

mutual
inductive JSVal where
  | undef
  | nullv
  | boolv (b : Bool)
  | num (n : Int)
  | str (s : String)
  | arr (xs : JSList)
  | obj (fs : JSFields)

inductive JSList where
  | nil
  | cons (v : JSVal) (rest : JSList)

inductive JSFields where
  | fnil
  | fcons (k : String) (v : JSVal) (rest : JSFields)
end

def JSList.ofList : List JSVal → JSList
  | [] => .nil
  | x :: xs => .cons x (JSList.ofList xs)

def JSList.toList : JSList → List JSVal
  | .nil => []
  | .cons x xs => x :: xs.toList

/-- Build a JS object value from a field list (keys assumed distinct). -/
def JSVal.mkObj (fs : List (String × JSVal)) : JSVal :=
  .obj (go fs)
where go : List (String × JSVal) → JSFields
  | [] => .fnil
  | (k, v) :: rest => .fcons k v (go rest)

/-- JS truthiness. -/
def jsTruthy : JSVal → Bool
  | .undef => false
  | .nullv => false
  | .boolv b => b
  | .num n => !(n = 0)
  | .str s => !(s = "")
  | .arr _ => true
  | .obj _ => true

/-- Model of `a || b`. -/
def jsOr (a b : JSVal) : JSVal := if jsTruthy a then a else b

/-- Field lookup in a JS object field list. -/
def JSFields.get : JSFields → String → JSVal
  | .fnil, _ => .undef
  | .fcons k v rest, key => if k = key then v else rest.get key

/-- Model of the optional-chaining property read `v?.key` (and of a plain
property read on a defined value): an object yields the field or
`undefined`; any other value yields `undefined`. -/
def jsGet (v : JSVal) (key : String) : JSVal :=
  match v with
  | .obj fs => fs.get key
  | _ => .undef

mutual
/-- Model of the JS `ToString` coercion (`String(v)`), restricted to the
value shapes of the model; arrays stringify as their comma-join. -/
def jsToString : JSVal → String
  | .undef => "undefined"
  | .nullv => "null"
  | .boolv b => cond b "true" "false"
  | .num n => toString n
  | .str s => s
  | .arr xs => jsJoinItems xs
  | .obj _ => "[object Object]"

/-- `Array.prototype.join(",")` over the elements. -/
def jsJoinItems : JSList → String
  | .nil => ""
  | .cons x .nil => jsJoinItem x
  | .cons x (.cons y ys) => jsJoinItem x ++ "," ++ jsJoinItems (.cons y ys)

/-- A single join item: `undefined`/`null` render as the empty string. -/
def jsJoinItem : JSVal → String
  | .undef => ""
  | .nullv => ""
  | .boolv b => cond b "true" "false"
  | .num n => toString n
  | .str s => s
  | .arr xs => jsJoinItems xs
  | .obj _ => "[object Object]"
end

/-- Model of `String(v ?? "")`. -/
def jsStringOfNullish : JSVal → String
  | .undef => ""
  | .nullv => ""
  | v => jsToString v

/-- A thrown JS exception, reduced to its message. -/
structure JsErr where
  message : String
deriving DecidableEq

/-- Model of the method call `v.toLowerCase()`: defined on strings, a
`TypeError` on every other value. -/
def jsToLowerCaseMeth : JSVal → Except JsErr String
  | .str s => .ok (jsToLowerCase s)
  | _ => .error ⟨"v.toLowerCase is not a function"⟩

/-- Model of `for (const x of v)` over `v`: arrays iterate their elements,
strings iterate their characters, anything else throws a `TypeError`. -/
def jsForOf : JSVal → Except JsErr (List JSVal)
  | .arr xs => .ok xs.toList
  | .str s => .ok (s.data.map fun c => .str ⟨[c]⟩)
  | _ => .error ⟨"v is not iterable"⟩

/-! ## JSON.parse

Fuel-bounded recursive-descent parser for JSON, modelling `JSON.parse` as
used by the multi_select normalization.  Restrictions of the model: numbers
are integers only (a fraction or exponent fails the parse), and `\u` escapes
denoting surrogates are replaced by U+FFFD. -/

def jsonWSCh (c : Char) : Bool := c = ' ' || c = '\t' || c = '\n' || c = '\r'

/-- A Unicode scalar value from a numeric escape; 0, surrogates and
out-of-range values become U+FFFD. -/
def scalarOfNat (n : Nat) : Char :=
  if n.isValidChar then Char.ofNat n else Char.ofNat 0xFFFD

/-- Leading-whitespace removal for JSON. -/
def jsonWSDrop (cs : List Char) : List Char := cs.dropWhile jsonWSCh

/-- Exactly four hex digits. -/
def jsonHex4 : List Char → Option (Nat × List Char)
  | a :: b :: c :: d :: rest =>
      if isHexDigitCh a && isHexDigitCh b && isHexDigitCh c && isHexDigitCh d then
        some (((hexVal a * 16 + hexVal b) * 16 + hexVal c) * 16 + hexVal d, rest)
      else none
  | _ => none

/-- Body of a JSON string, after the opening quote. -/
def jsonStrBody : Nat → List Char → List Char → Option (String × List Char)
  | 0, _, _ => none
  | _ + 1, _, [] => none
  | fuel + 1, acc, c :: cs =>
      if c = '"' then some (⟨acc.reverse⟩, cs)
      else if c = '\\' then
        match cs with
        | [] => none
        | e :: cs2 =>
            if e = '"' || e = '\\' || e = '/' then jsonStrBody fuel (e :: acc) cs2
            else if e = 'b' then jsonStrBody fuel ((Char.ofNat 8) :: acc) cs2
            else if e = 'f' then jsonStrBody fuel ((Char.ofNat 12) :: acc) cs2
            else if e = 'n' then jsonStrBody fuel ('\n' :: acc) cs2
            else if e = 'r' then jsonStrBody fuel ('\r' :: acc) cs2
            else if e = 't' then jsonStrBody fuel ('\t' :: acc) cs2
            else if e = 'u' then
              match jsonHex4 cs2 with
              | some (n, cs3) => jsonStrBody fuel (scalarOfNat n :: acc) cs3
              | none => none
            else none
      else if c.toNat < 0x20 then none
      else jsonStrBody fuel (c :: acc) cs

/-- Digits of a JSON integer (value accumulation). -/
def jsonDigits : Nat → Nat → List Char → Nat × List Char
  | 0, acc, cs => (acc, cs)
  | _ + 1, acc, [] => (acc, [])
  | fuel + 1, acc, c :: cs =>
      if isAsciiDigitCh c then jsonDigits fuel (acc * 10 + (c.toNat - 48)) cs
      else (acc, c :: cs)

/-- A JSON natural numeral: digits with no leading zero, and no fraction or
exponent (model restriction); the optional sign is stripped here and applied
by the caller. -/
def jsonNat (cs0 : List Char) : Option (Nat × List Char) :=
  match cs0 with
  | '-' :: cs => jsonNatBody cs
  | cs => jsonNatBody cs
where jsonNatBody (cs : List Char) : Option (Nat × List Char) :=
  match cs with
  | [] => none
  | c :: cs1 =>
      if !isAsciiDigitCh c then none
      else if c = '0' then
        match cs1 with
        | d :: _ =>
            if isAsciiDigitCh d || d = '.' || d = 'e' || d = 'E' then none
            else some (0, cs1)
        | [] => some (0, [])
      else
        let p := jsonDigits cs.length (c.toNat - 48) cs1
        match p.2 with
        | d :: _ => if d = '.' || d = 'e' || d = 'E' then none else some p
        | [] => some p

/-- Replace a key in a JSON object being built (later duplicate keys
overwrite, as in `JSON.parse`). -/
def JSFields.setKey : JSFields → String → JSVal → JSFields
  | .fnil, k, v => .fcons k v .fnil
  | .fcons k0 v0 rest, k, v =>
      if k0 = k then .fcons k0 v rest else .fcons k0 v0 (rest.setKey k v)

mutual
/-- One JSON value (leading whitespace already skipped). -/
def jsonVal : Nat → List Char → Option (JSVal × List Char)
  | 0, _ => none
  | _ + 1, [] => none
  | fuel + 1, c :: cs =>
      if c = '"' then
        match jsonStrBody (cs.length + 1) [] cs with
        | some (s, rest) => some (.str s, rest)
        | none => none
      else if c = '[' then
        match jsonArrItems fuel true (jsonWSDrop cs) with
        | some (xs, rest) => some (.arr xs, rest)
        | none => none
      else if c = '\x7b' then
        match jsonObjItems fuel true .fnil (jsonWSDrop cs) with
        | some (fs, rest) => some (.obj fs, rest)
        | none => none
      else if c = 't' then
        match cs with
        | 'r' :: 'u' :: 'e' :: rest => some (.boolv true, rest)
        | _ => none
      else if c = 'f' then
        match cs with
        | 'a' :: 'l' :: 's' :: 'e' :: rest => some (.boolv false, rest)
        | _ => none
      else if c = 'n' then
        match cs with
        | 'u' :: 'l' :: 'l' :: rest => some (.nullv, rest)
        | _ => none
      else if c = '-' then
        match jsonNat (c :: cs) with
        | some (n, rest) => some (.num (-(n : Int)), rest)
        | none => none
      else if isAsciiDigitCh c then
        match jsonNat (c :: cs) with
        | some (n, rest) => some (.num (n : Int), rest)
        | none => none
      else none

/-- Items of a JSON array; `first` marks that no element has been read yet
(so `]` closes an empty array). -/
def jsonArrItems : Nat → Bool → List Char → Option (JSList × List Char)
  | 0, _, _ => none
  | _ + 1, _, [] => none
  | fuel + 1, first, c :: cs =>
      if c = ']' then
        if first then some (.nil, cs) else none
      else
        match jsonVal fuel (c :: cs) with
        | none => none
        | some (v, rest) =>
            match jsonWSDrop rest with
            | ']' :: rest2 => some (.cons v .nil, rest2)
            | ',' :: rest2 =>
                match jsonArrItems fuel false (jsonWSDrop rest2) with
                | some (xs, rest3) => some (.cons v xs, rest3)
                | none => none
            | _ => none

/-- Members of a JSON object (analogous to the array case). -/
def jsonObjItems : Nat → Bool → JSFields → List Char → Option (JSFields × List Char)
  | 0, _, _, _ => none
  | _ + 1, _, _, [] => none
  | fuel + 1, first, acc, c :: cs =>
      if c = '\x7d' then
        if first then some (acc, cs) else none
      else if c = '"' then
        match jsonStrBody (cs.length + 1) [] cs with
        | none => none
        | some (k, rest) =>
            match jsonWSDrop rest with
            | ':' :: rest2 =>
                match jsonVal fuel (jsonWSDrop rest2) with
                | none => none
                | some (v, rest3) =>
                    match jsonWSDrop rest3 with
                    | '\x7d' :: rest4 => some (acc.setKey k v, rest4)
                    | ',' :: rest4 => jsonObjItems fuel false (acc.setKey k v) (jsonWSDrop rest4)
                    | _ => none
            | _ => none
      else none
end

/-- Model of `JSON.parse`: the whole input must be one JSON value. -/
def jsonParse (s : String) : Option JSVal :=
  match jsonVal (2 * s.data.length + 2) (jsonWSDrop s.data) with
  | some (v, rest) => if jsonWSDrop rest = [] then some v else none
  | none => none

/-! ## CSS selectors: syntax

The grammar covers what the script emits and the common simple selectors:
`#id`, `tag`, `[attr="value"]` (with CSS escapes), `:nth-of-type(k)`, the
child (`>`) and descendant (space) combinators, and comma-separated lists.
Anything outside this grammar makes the modelled `querySelector` throw a
`SyntaxError`; this is stricter than a browser (which knows further
pseudo-classes), but the script's own selectors and the claims below stay
inside the modelled grammar. -/

/-- An attribute constraint; `#v` is desugared to `[id="v"]`. -/
structure AttrSel where
  name : String
  value : String
deriving DecidableEq

/-- A compound selector. -/
structure Compound where
  tag : Option String := none
  sAttrs : List AttrSel := []
  nths : List Nat := []
deriving DecidableEq

inductive Combinator where
  | descendant
  | child
deriving DecidableEq

/-- A complex selector, right-most compound outermost. -/
inductive Complex where
  | base (c : Compound)
  | comb (rest : Complex) (k : Combinator) (c : Compound)
deriving DecidableEq

/-- CSS whitespace. -/
def cssWSCh (c : Char) : Bool :=
  c = ' ' || c = '\t' || c = '\n' || c.toNat = 0xC || c = '\r'

def skipCssWs (cs : List Char) : List Char := cs.dropWhile cssWSCh

/-- A code point named by a CSS hex escape; zero, surrogates and
out-of-range values become U+FFFD (CSS Syntax §4.3.7). -/
def cssCodePoint (n : Nat) : Char :=
  if n = 0 then Char.ofNat 0xFFFD
  else if n.isValidChar then Char.ofNat n
  else Char.ofNat 0xFFFD

/-- Consume up to `fuel` further hex digits, accumulating their value. -/
def takeHex : Nat → Nat → List Char → Nat × List Char
  | 0, acc, cs => (acc, cs)
  | _ + 1, acc, [] => (acc, [])
  | fuel + 1, acc, c :: cs =>
      if isHexDigitCh c then takeHex fuel (acc * 16 + hexVal c) cs else (acc, c :: cs)

/-- Consume a CSS escape (the backslash has already been consumed): up to
six hex digits followed by one optional whitespace, or a single literal
character; a backslash before a newline or at the end of input is invalid. -/
def parseEscape : List Char → Option (Char × List Char)
  | [] => none
  | c :: cs =>
      if isHexDigitCh c then
        let p := takeHex 5 (hexVal c) cs
        let rest :=
          match p.2 with
          | r :: rs => if cssWSCh r then rs else p.2
          | [] => []
        some (cssCodePoint p.1, rest)
      else if c = '\n' then none
      else some (c, cs)

/-- Characters that continue an identifier without an escape.  The model is
lenient about identifier start characters (a browser would reject an
identifier starting with a bare digit); `CSS.escape` output never exercises
the difference. -/
def isIdentCh (c : Char) : Bool :=
  isAsciiAlphaCh c || isAsciiDigitCh c || c.toNat = 45 || c.toNat = 95 || c.toNat ≥ 0x80

/-- Identifier characters and escapes; stops at the first terminator. -/
def parseIdentAux : Nat → List Char → List Char → List Char × List Char
  | 0, acc, cs => (acc.reverse, cs)
  | _ + 1, acc, [] => (acc.reverse, [])
  | fuel + 1, acc, c :: cs =>
      if isIdentCh c then parseIdentAux fuel (c :: acc) cs
      else if c = '\\' then
        match parseEscape cs with
        | some (d, rest) => parseIdentAux fuel (d :: acc) rest
        | none => (acc.reverse, c :: cs)
      else (acc.reverse, c :: cs)

/-- A non-empty identifier. -/
def parseIdent (cs : List Char) : Option (String × List Char) :=
  let p := parseIdentAux cs.length [] cs
  if p.1 = [] then none else some (⟨p.1⟩, p.2)

/-- Body of a double-quoted CSS string, after the opening quote. -/
def parseStrBody : Nat → List Char → List Char → Option (String × List Char)
  | 0, _, _ => none
  | _ + 1, _, [] => none
  | fuel + 1, acc, c :: cs =>
      if c = '"' then some (⟨acc.reverse⟩, cs)
      else if c = '\\' then
        match parseEscape cs with
        | some (d, rest) => parseStrBody fuel (d :: acc) rest
        | none => none
      else if c = '\n' then none
      else parseStrBody fuel (c :: acc) cs

/-- Consume decimal digits, accumulating their value. -/
def takeDec : Nat → Nat → List Char → Nat × List Char
  | 0, acc, cs => (acc, cs)
  | _ + 1, acc, [] => (acc, [])
  | fuel + 1, acc, c :: cs =>
      if isAsciiDigitCh c then takeDec fuel (acc * 10 + (c.toNat - 48)) cs
      else (acc, c :: cs)

/-- Suffixes of a compound selector: id, attribute and `:nth-of-type(k)`
constraints (the only pseudo-class the model knows; the script only ever
emits plain non-negative integer arguments, so the full An+B syntax is not
modelled). -/
def parseCompoundRest : Nat → Compound → List Char → Option (Compound × List Char)
  | 0, _, _ => none
  | _ + 1, acc, [] => some (acc, [])
  | fuel + 1, acc, c :: cs =>
      if c = '#' then
        match parseIdent cs with
        | some (v, rest) =>
            parseCompoundRest fuel { acc with sAttrs := acc.sAttrs ++ [⟨"id", v⟩] } rest
        | none => none
      else if c = '[' then
        match parseIdent (skipCssWs cs) with
        | some (an, rest1) =>
            match skipCssWs rest1 with
            | '=' :: rest2 =>
                match skipCssWs rest2 with
                | '"' :: rest3 =>
                    match parseStrBody (rest3.length + 1) [] rest3 with
                    | some (v, rest4) =>
                        match skipCssWs rest4 with
                        | ']' :: rest5 =>
                            parseCompoundRest fuel
                              { acc with sAttrs := acc.sAttrs ++ [⟨an, v⟩] } rest5
                        | _ => none
                    | none => none
                | _ => none
            | _ => none
        | none => none
      else if c = ':' then
        match parseIdent cs with
        | some (pn, rest1) =>
            if pn = "nth-of-type" then
              match rest1 with
              | '(' :: rest2 =>
                  match skipCssWs rest2 with
                  | d :: rest3 =>
                      if isAsciiDigitCh d then
                        let p := takeDec rest3.length (d.toNat - 48) rest3
                        match skipCssWs p.2 with
                        | ')' :: rest4 =>
                            parseCompoundRest fuel { acc with nths := acc.nths ++ [p.1] } rest4
                        | _ => none
                      else none
                  | [] => none
              | _ => none
            else none
        | none => none
      else some (acc, c :: cs)

/-- One compound selector (type selector and/or suffixes). -/
def parseCompound (cs : List Char) : Option (Compound × List Char) :=
  match cs with
  | [] => none
  | c :: _ =>
      if isIdentCh c || c = '\\' then
        match parseIdent cs with
        | some (t, rest) => parseCompoundRest (rest.length + 1) { tag := some t } rest
        | none => none
      else if c = '#' || c = '[' || c = ':' then
        parseCompoundRest (cs.length + 1) {} cs
      else none

/-- Trailing combinator-compound pairs of a complex selector. -/
def parseComplexRest : Nat → Complex → List Char → Option (Complex × List Char)
  | 0, _, _ => none
  | fuel + 1, left, cs =>
      match skipCssWs cs with
      | '>' :: rest =>
          match parseCompound (skipCssWs rest) with
          | some (c2, rest2) => parseComplexRest fuel (.comb left .child c2) rest2
          | none => none
      | c :: rest0 =>
          if (skipCssWs cs).length < cs.length &&
              (isIdentCh c || c = '\\' || c = '#' || c = '[' || c = ':') then
            match parseCompound (c :: rest0) with
            | some (c2, rest2) => parseComplexRest fuel (.comb left .descendant c2) rest2
            | none => none
          else some (left, cs)
      | [] => some (left, cs)

/-- Comma-separated selector list; the whole input must be consumed. -/
def parseSelListAux : Nat → List Complex → List Char → Option (List Complex)
  | 0, _, _ => none
  | fuel + 1, acc, cs =>
      match parseCompound (skipCssWs cs) with
      | none => none
      | some (c0, rest) =>
          match parseComplexRest (rest.length + 1) (.base c0) rest with
          | some (cx, rest2) =>
              match skipCssWs rest2 with
              | [] => some (acc ++ [cx])
              | ',' :: rest4 => parseSelListAux fuel (acc ++ [cx]) rest4
              | _ => none
          | none => none

/-- Parse a selector string, as the argument of `querySelector`,
`querySelectorAll` or `closest`. -/
def parseSelList (s : String) : Option (List Complex) :=
  parseSelListAux (s.data.length + 1) [] s.data

/-! ## The DOM

A document is a flat list of nodes in document (pre-order) order.  A node
carries its structural path — the chain of child indices from the root — so
parent/sibling/ancestor relations are path computations.  An element is
referenced by its index in the list.  `value`, `checked` and `selected` are
the mutable DOM properties the script writes; they deliberately do not
reflect back into `attrs` (setting `el.value` does not change the `value`
content attribute), which is exactly why selector matching is unaffected by
the script's writes. -/

structure DNode where
  path : List Nat := []
  isText : Bool := false
  tag : String := ""
  attrs : List (String × String) := []
  text : String := ""
  value : String := ""
  checked : Bool := false
  selected : Bool := false
deriving DecidableEq

abbrev Doc := List DNode

def nodeAt (doc : Doc) (i : Nat) : Option DNode := doc[i]?

def isElemAt (doc : Doc) (i : Nat) : Bool :=
  match nodeAt doc i with
  | some n => !n.isText
  | none => false

def tagAt (doc : Doc) (i : Nat) : String :=
  match nodeAt doc i with
  | some n => n.tag
  | none => ""

/-- Lower-cased tag, as compared by CSS matching and by the script. -/
def tagLowerAt (doc : Doc) (i : Nat) : String := jsToLowerCase (tagAt doc i)

def pathAt (doc : Doc) (i : Nat) : List Nat :=
  match nodeAt doc i with
  | some n => n.path
  | none => []

/-- Model of `getAttribute` (`none` plays the role of `null`). -/
def getAttr (doc : Doc) (i : Nat) (name : String) : Option String :=
  match nodeAt doc i with
  | some n => List.lookup name n.attrs
  | none => none

def getAttrD (doc : Doc) (i : Nat) (name dflt : String) : String :=
  (getAttr doc i name).getD dflt

def hasAttr (doc : Doc) (i : Nat) (name : String) : Bool :=
  (getAttr doc i name).isSome

/-- The key identifying a node's parent: `none` for a root. -/
def parentKeyOf (p : List Nat) : Option (List Nat) :=
  match p with
  | [] => none
  | _ => some p.dropLast

/-- `anc` is an element and a proper structural ancestor of `des`. -/
def isStrictAncB (doc : Doc) (anc des : Nat) : Bool :=
  isElemAt doc anc && (pathAt doc anc).isPrefixOf (pathAt doc des) &&
    (pathAt doc anc).length < (pathAt doc des).length

/-- `j` is an element sibling of `i` (same parent) with the same tag. -/
def sameTypeSib (doc : Doc) (i j : Nat) : Bool :=
  isElemAt doc j && decide (parentKeyOf (pathAt doc j) = parentKeyOf (pathAt doc i)) &&
    decide (tagLowerAt doc j = tagLowerAt doc i)

/-- 1-based position of `i` among its same-tag element siblings, in
document order: the semantics of `:nth-of-type`. -/
def nthOfTypeIdx (doc : Doc) (i : Nat) : Nat :=
  1 + ((List.range i).filter (fun j => sameTypeSib doc i j)).length

/-- Attribute presence/value test of a compound selector.  The HTML `type`
attribute is compared ASCII case-insensitively (it is in HTML's legacy list
of case-insensitive attribute values; the model carries the one entry the
script's selectors use). -/
def ciAttrNames : List String := ["type"]

def attrMatches (doc : Doc) (i : Nat) (a : AttrSel) : Bool :=
  match getAttr doc i a.name with
  | some v =>
      if ciAttrNames.contains a.name then decide (jsToLowerCase v = jsToLowerCase a.value)
      else decide (v = a.value)
  | none => false

def matchCompound (doc : Doc) (i : Nat) (c : Compound) : Bool :=
  isElemAt doc i &&
    (match c.tag with
     | some t => decide (jsToLowerCase t = tagLowerAt doc i)
     | none => true) &&
    c.sAttrs.all (attrMatches doc i) &&
    c.nths.all (fun k => decide (nthOfTypeIdx doc i = k))

/-- Index of the parent element of `i`. -/
def parentIdxOf (doc : Doc) (i : Nat) : Option Nat :=
  match parentKeyOf (pathAt doc i) with
  | none => none
  | some pp => (List.range doc.length).find? (fun j => isElemAt doc j && decide (pathAt doc j = pp))

def matchComplex (doc : Doc) : Complex → Nat → Bool
  | .base c, i => matchCompound doc i c
  | .comb rest .child c, i =>
      matchCompound doc i c &&
        (match parentIdxOf doc i with
         | some j => matchComplex doc rest j
         | none => false)
  | .comb rest .descendant c, i =>
      matchCompound doc i c &&
        (List.range doc.length).any (fun j => isStrictAncB doc j i && matchComplex doc rest j)

def matchesSelList (doc : Doc) (sels : List Complex) (i : Nat) : Bool :=
  sels.any (fun cx => matchComplex doc cx i)

/-- All matching element indices, in document order. -/
def queryAll (doc : Doc) (sels : List Complex) : List Nat :=
  (List.range doc.length).filter (matchesSelList doc sels)

def selectorSyntaxErr : JsErr := ⟨"SyntaxError: not a valid selector"⟩

/-- Model of `document.querySelectorAll`. -/
def querySelectorAllE (doc : Doc) (s : String) : Except JsErr (List Nat) :=
  match parseSelList s with
  | none => .error selectorSyntaxErr
  | some sels => .ok (queryAll doc sels)

/-- Model of `document.querySelector`. -/
def querySelectorE (doc : Doc) (s : String) : Except JsErr (Option Nat) :=
  match parseSelList s with
  | none => .error selectorSyntaxErr
  | some sels => .ok (queryAll doc sels).head?

/-- The element itself followed by its element ancestors, nearest first. -/
def ancestorChain (doc : Doc) (i : Nat) : List Nat :=
  let p := pathAt doc i
  (List.range (p.length + 1)).reverse.filterMap fun k =>
    if k = p.length then some i
    else (List.range doc.length).find? fun j =>
      isElemAt doc j && decide (pathAt doc j = p.take k)

/-- Model of `el.closest(t)` for a bare type selector `t` (the script only
calls `closest` with the constant selectors "label" and "form"): the nearest
ancestor-or-self element with that tag. -/
def closestTagEl (doc : Doc) (i : Nat) (t : String) : Option Nat :=
  (ancestorChain doc i).find? fun j =>
    isElemAt doc j && decide (tagLowerAt doc j = jsToLowerCase t)

def textAt (doc : Doc) (i : Nat) : String :=
  match nodeAt doc i with
  | some n => if n.isText then n.text else ""
  | none => ""

/-- Model of `innerText` as the concatenation of the descendant text nodes
in document order (layout-driven whitespace is not modelled; the script
always trims the result). -/
def innerTextOf (doc : Doc) (i : Nat) : String :=
  ((List.range doc.length).filter fun j =>
      (nodeAt doc j).isSome && !isElemAt doc j &&
        (pathAt doc i).isPrefixOf (pathAt doc j) &&
        (pathAt doc i).length < (pathAt doc j).length).foldl
    (fun acc j => acc ++ textAt doc j) ""

/-- The `options` collection of a select: its option descendants, in
document order. -/
def optionsOf (doc : Doc) (i : Nat) : List Nat :=
  (List.range doc.length).filter fun j =>
    decide (tagLowerAt doc j = "option") && isStrictAncB doc i j

/-- `option.text`: the option's text content (the script trims it). -/
def optionTextProp (doc : Doc) (i : Nat) : String := innerTextOf doc i

/-- `option.value`: the `value` attribute, else the text content. -/
def optionValueProp (doc : Doc) (i : Nat) : String :=
  (getAttr doc i "value").getD (optionTextProp doc i)

def checkedAt (doc : Doc) (i : Nat) : Bool :=
  match nodeAt doc i with
  | some n => n.checked
  | none => false

def selectedAt (doc : Doc) (i : Nat) : Bool :=
  match nodeAt doc i with
  | some n => n.selected
  | none => false

def valueFieldAt (doc : Doc) (i : Nat) : String :=
  match nodeAt doc i with
  | some n => n.value
  | none => ""

/-- The `value` property: for a select, the value of its first selected
option (or ""); for an option, its value attribute/text; otherwise the
mutable value state of the control. -/
def valueProp (doc : Doc) (i : Nat) : String :=
  if tagLowerAt doc i = "select" then
    match (optionsOf doc i).find? (fun j => selectedAt doc j) with
    | some j => optionValueProp doc j
    | none => ""
  else if tagLowerAt doc i = "option" then optionValueProp doc i
  else valueFieldAt doc i

/-- `el.disabled` / `el.multiple`: reflected content attributes. -/
def disabledProp (doc : Doc) (i : Nat) : Bool := hasAttr doc i "disabled"

def multipleProp (doc : Doc) (i : Nat) : Bool := hasAttr doc i "multiple"

/-- Number of element children (`el.children.length`). -/
def childElemCount (doc : Doc) (i : Nat) : Nat :=
  ((List.range doc.length).filter fun j =>
    isElemAt doc j && decide (parentKeyOf (pathAt doc j) = some (pathAt doc i))).length

/-! ### DOM writes -/

def modifyNode (doc : Doc) (i : Nat) (f : DNode → DNode) : Doc :=
  match nodeAt doc i with
  | some n => doc.set i (f n)
  | none => doc

def setCheckedAt (doc : Doc) (i : Nat) (b : Bool) : Doc :=
  modifyNode doc i fun n => { n with checked := b }

def setValueAt (doc : Doc) (i : Nat) (s : String) : Doc :=
  modifyNode doc i fun n => { n with value := s }

def setSelectedAt (doc : Doc) (i : Nat) (b : Bool) : Doc :=
  modifyNode doc i fun n => { n with selected := b }

/-- DOM semantics of the assignment `select.value = s`: the first option
whose value equals `s` becomes the unique selected option; if none matches,
every option is deselected. -/
def setSelectValue (doc : Doc) (i : Nat) (s : String) : Doc :=
  let opts := optionsOf doc i
  match opts.find? (fun j => decide (optionValueProp doc j = s)) with
  | some jSel => opts.foldl (fun d j => setSelectedAt d j (decide (j = jSel))) doc
  | none => opts.foldl (fun d j => setSelectedAt d j false) doc

/-! ## The content script (src/content.js)

The functions below are translated from the source one by one.  The legacy
helper `setValue` (dead code by the source's own comment: "Current code-path
sets values inline in APPLY_MAPPINGS") is not modelled.  Dispatching the
synthetic input/change events after a write is a DOM no-op in the model. -/

/-- Truthiness of a `getAttribute` result (`null` and `""` are falsy). -/
def truthyAttr (o : Option String) : Bool :=
  match o with
  | some s => !(s = "")
  | none => false

/-- Model of `(x?.innerText || "")` for `x = el.closest("label")`. -/
def closestLabelText (doc : Doc) (el : Nat) : String :=
  match closestTagEl doc el "label" with
  | some l => innerTextOf doc l
  | none => ""

/-- `getLabelText` (content.js:6): prefer a `label[for=id]`, else a
wrapping label; empty string otherwise. -/
def getLabelTextE (doc : Doc) (el : Nat) : Except JsErr String := do
  let idA := getAttr doc el "id"
  let hit ←
    if truthyAttr idA then do
      let lab ← querySelectorE doc ("label[for=\"" ++ cssEscape (idA.getD "") ++ "\"]")
      match lab with
      | some l => pure (some (jsTrim (innerTextOf doc l)))
      | none => pure none
    else pure none
  match hit with
  | some s => return s
  | none =>
      match closestTagEl doc el "label" with
      | some p => return jsTrim (innerTextOf doc p)
      | none => return ""

/-- `group.indexOf(el)` on a node list. -/
def listIdxOf (x : Nat) : List Nat → Option Nat
  | [] => none
  | y :: ys => if y = x then some 0 else (listIdxOf x ys).map (· + 1)

/-- First element with tag `body` (model of `document.body`). -/
def docBody (doc : Doc) : Option Nat :=
  (List.range doc.length).find? fun j =>
    isElemAt doc j && decide (tagLowerAt doc j = "body")

/-- 1-based position of `cur` among its parent's same-tag element children
(exact tagName comparison, as in the source's `sibs.indexOf(cur) + 1`);
`0` when `cur` has no parent element. -/
def domSibIdx (doc : Doc) (i : Nat) : Nat :=
  match parentKeyOf (pathAt doc i) with
  | none => 0
  | some _ =>
      1 + ((List.range i).filter fun j =>
        isElemAt doc j && decide (parentKeyOf (pathAt doc j) = parentKeyOf (pathAt doc i)) &&
          decide (tagAt doc j = tagAt doc i)).length

/-- The `while` walk of `buildSelector`'s fallback: collect
`tag:nth-of-type(k)` segments from `el` up to (excluding) the boundary. -/
def buildPathSegs (doc : Doc) (formIdx : Nat) : Nat → Option Nat → List String → List String
  | 0, _, acc => acc
  | _ + 1, none, acc => acc
  | fuel + 1, some cur, acc =>
      if cur = formIdx then acc
      else if !isElemAt doc cur then acc
      else
        buildPathSegs doc formIdx fuel (parentIdxOf doc cur)
          ((tagLowerAt doc cur ++ ":nth-of-type(" ++ natToDec (domSibIdx doc cur) ++ ")") :: acc)

/-- `path.join(" > ")`. -/
def joinSegs : List String → String
  | [] => ""
  | [s] => s
  | s :: t :: more => s ++ " > " ++ joinSegs (t :: more)

/-- `buildSelector` (content.js:22): `#id`, `tag[name=...]` (with an
nth-of-type disambiguator for radio/checkbox groups), `tag[aria-label=...]`,
or a structural nth-of-type path from the nearest form/body. -/
def buildSelectorE (doc : Doc) (el : Nat) : Except JsErr String := do
  let idA := getAttr doc el "id"
  if truthyAttr idA then
    return "#" ++ cssEscape (idA.getD "")
  else
  let nameA := getAttr doc el "name"
  if truthyAttr nameA then do
    let name := nameA.getD ""
    let tag := tagLowerAt doc el
    let ty := jsToLowerCase (getAttrD doc el "type" "")
    if ty = "radio" || ty = "checkbox" then do
      let group ← querySelectorAllE doc (tag ++ "[name=\"" ++ cssEscape name ++ "\"]")
      match listIdxOf el group with
      | some idx =>
          return tag ++ "[name=\"" ++ cssEscape name ++ "\"]:nth-of-type(" ++
            natToDec (idx + 1) ++ ")"
      | none => return tag ++ "[name=\"" ++ cssEscape name ++ "\"]"
    else
      return tag ++ "[name=\"" ++ cssEscape name ++ "\"]"
  else
  let ariaA := getAttr doc el "aria-label"
  if truthyAttr ariaA then
    return tagLowerAt doc el ++ "[aria-label=\"" ++ cssEscape (ariaA.getD "") ++ "\"]"
  else
  let formO :=
    match closestTagEl doc el "form" with
    | some f => some f
    | none => docBody doc
  match formO with
  | none => .error ⟨"TypeError: cannot read tagName of null"⟩
  | some form =>
      let segs := buildPathSegs doc form ((pathAt doc el).length + 1) (some el) []
      let formSel := if tagLowerAt doc form = "form" then "form" else "body"
      return jsTrim (formSel ++ " " ++ joinSegs segs)

/-! ### extractFields -/

structure OptionDesc where
  value : String
  text : String
deriving DecidableEq

structure RadioDesc where
  value : String
  label : String
deriving DecidableEq

structure FieldDescriptor where
  selector : String
  tag : String
  ty : String
  name : String
  id : String
  placeholder : String
  label : String
  children : Nat
  value : String
  multiple : Bool
  checked : Bool
  options : Option (List OptionDesc)
  radio_group : Option (List RadioDesc)
deriving DecidableEq

/-- Known values of the `input` `type` attribute (`el.type` falls back to
"text" on anything unknown). -/
def knownInputTypes : List String :=
  ["button", "checkbox", "color", "date", "datetime-local", "email", "file",
   "hidden", "image", "month", "number", "password", "radio", "range",
   "reset", "search", "submit", "tel", "text", "time", "url", "week"]

/-- The `el.type` IDL property. -/
def typeProp (doc : Doc) (i : Nat) : String :=
  let tl := tagLowerAt doc i
  if tl = "input" then
    let t := jsToLowerCase (getAttrD doc i "type" "")
    if knownInputTypes.contains t then t else "text"
  else if tl = "select" then
    if multipleProp doc i then "select-multiple" else "select-one"
  else if tl = "textarea" then "textarea"
  else ""

/-- Candidate controls of `extractFields` (content.js:67-73): every input,
textarea and select, minus disabled controls and the excluded input types. -/
def extractCandidates (doc : Doc) : Except JsErr (List Nat) := do
  let all ← querySelectorAllE doc "input, textarea, select"
  return (all.filter fun el => !disabledProp doc el).filter fun el =>
    let t := jsToLowerCase (getAttrD doc el "type" "")
    !(t = "hidden") && !(t = "submit") && !(t = "button") && !(t = "reset") && !(t = "file")

/-- Effect-free `mapM` over `Except`. -/
def exceptMapM (f : Nat → Except JsErr FieldDescriptor) :
    List Nat → Except JsErr (List FieldDescriptor)
  | [] => .ok []
  | x :: xs => do
      let y ← f x
      let ys ← exceptMapM f xs
      return y :: ys

/-- The field-descriptor record built for one candidate (content.js:76-98). -/
def mkFieldDescriptor (doc : Doc) (el : Nat) : Except JsErr FieldDescriptor := do
  let sel ← buildSelectorE doc el
  let lab ← getLabelTextE doc el
  let tl := tagLowerAt doc el
  let nm := getAttrD doc el "name" ""
  let rgroup ←
    if typeProp doc el = "radio" && !(nm = "") then do
      let gq ← querySelectorAllE doc ("input[type=\"radio\"][name=\"" ++ cssEscape nm ++ "\"]")
      pure (some (gq.map fun r =>
        RadioDesc.mk (valueProp doc r) (jsTrim (closestLabelText doc r))))
    else pure none
  return {
    selector := sel
    tag := tl
    ty := jsToLowerCase (getAttrD doc el "type" "")
    name := nm
    id := getAttrD doc el "id" ""
    placeholder := getAttrD doc el "placeholder" ""
    label := lab
    children := childElemCount doc el
    value := ⟨(valueProp doc el).data.take 200⟩
    multiple := if tl = "select" then multipleProp doc el else false
    checked := if typeProp doc el = "checkbox" || typeProp doc el = "radio" then
        checkedAt doc el else false
    options := if tl = "select" then
        some ((optionsOf doc el).map fun o =>
          OptionDesc.mk (optionValueProp doc o) (jsTrim (optionTextProp doc o)))
      else none
    radio_group := rgroup }

/-- `extractFields` (content.js:65). -/
def extractFieldsE (doc : Doc) : Except JsErr (List FieldDescriptor) := do
  let els ← extractCandidates doc
  exceptMapM (mkFieldDescriptor doc) els

/-! ### The APPLY_MAPPINGS loop -/

/-- The truthy value tokens of the apply handler (content.js:173,200). -/
def truthyTok (v : String) : Bool :=
  v = "true" || v = "yes" || v = "1" || v = "checked" || v = "on"

/-- Step 3 normalization (content.js:160-168): for a multi_select kind and
a string value of JSON-array shape, a successful array parse replaces the
value; otherwise the value is kept. -/
def normalizeMultiVal (kind : String) (raw : JSVal) : JSVal :=
  match raw with
  | .str s =>
      if kind = "multi_select" then
        let t := jsTrim s
        if listStartsWith t.data '[' && listEndsWith t.data ']' then
          match jsonParse t with
          | some (.arr xs) => .arr xs
          | _ => raw
        else raw
      else raw
  | _ => raw

/-- The radio-group pick (content.js:186-188): first by value, then by
wrapping-label text. -/
def radioPick (doc : Doc) (group : List Nat) (v : String) : Option Nat :=
  match group.find? (fun r => decide (jsToLowerCase (jsTrim (valueProp doc r)) = v)) with
  | some r => some r
  | none => group.find? fun r => decide (jsToLowerCase (jsTrim (closestLabelText doc r)) = v)

/-- The `wanted` token list of the select branch (content.js:216-218):
an array maps element-wise, anything else becomes a one-element list;
tokens are trimmed, lower-cased and empties dropped. -/
def selWanted (val : JSVal) : List String :=
  match val with
  | .arr xs => (xs.toList.map fun x => jsToLowerCase (jsTrim (jsToString x))).filter
      fun w => !(w = "")
  | _ => ([jsToLowerCase (jsTrim (jsStringOfNullish val))]).filter fun w => !(w = "")

/-- The `resolveOne` closure of the select branch (content.js:224-226):
match an option by value, else by visible text. -/
def selResolveOne (doc : Doc) (options : List Nat) (w : String) : Option Nat :=
  match options.find? (fun o => decide (jsToLowerCase (jsTrim (optionValueProp doc o)) = w)) with
  | some o => some o
  | none => options.find? fun o => decide (jsToLowerCase (jsTrim (optionTextProp doc o)) = w)

inductive Outcome where
  | updated
  | skipped
deriving DecidableEq

/-- One iteration of the apply loop (content.js:140-261); the outcome says
which counter the iteration bumps. -/
def applyOne (doc : Doc) (m : JSVal) : Except JsErr (Outcome × Doc) := do
  let sel := jsGet m "selector"
  let raw := jsGet m "value"
  let kind ← jsToLowerCaseMeth (jsOr (jsGet m "kind") (.str ""))
  if !jsTruthy sel then return (.skipped, doc)
  else
  let elO :=
    match querySelectorE doc (jsToString sel) with
    | .ok r => r
    | .error _ => none
  match elO with
  | none => return (.skipped, doc)
  | some el => do
    let tag := tagLowerAt doc el
    let ty := jsToLowerCase (getAttrD doc el "type" "")
    if ty = "file" then return (.skipped, doc)
    else do
    let val := normalizeMultiVal kind raw
    if ty = "checkbox" then
      let v := jsToLowerCase (jsTrim (jsStringOfNullish val))
      return (.updated, setCheckedAt doc el (truthyTok v))
    else if ty = "radio" then do
      let v := jsToLowerCase (jsTrim (jsStringOfNullish val))
      let nm := getAttrD doc el "name" ""
      let pickO ←
        if !(nm = "") then do
          let group ← querySelectorAllE doc
            ("input[type=\"radio\"][name=\"" ++ cssEscape nm ++ "\"]")
          pure (radioPick doc group v)
        else pure none
      match pickO with
      | some pick => return (.updated, setCheckedAt doc pick true)
      | none =>
          if truthyTok v then return (.updated, setCheckedAt doc el true)
          else return (.skipped, doc)
    else if tag = "select" then
      let isMultiple := multipleProp doc el
      let wanted := selWanted val
      if wanted = [] then return (.skipped, doc)
      else
      let options := optionsOf doc el
      if isMultiple then
        let doc1 := options.foldl (fun d o => setSelectedAt d o false) doc
        let st := wanted.foldl (fun (p : Bool × Doc) w =>
          match selResolveOne doc options w with
          | some opt => (true, setSelectedAt p.2 opt true)
          | none => p) (false, doc1)
        if !st.1 then return (.skipped, st.2)
        else return (.updated, st.2)
      else
        match wanted with
        | [] => return (.skipped, doc)
        | w0 :: _ =>
            match selResolveOne doc options w0 with
            | none => return (.skipped, doc)
            | some opt => return (.updated, setSelectValue doc el (optionValueProp doc opt))
    else
      return (.updated, setValueAt doc el (jsStringOfNullish val))

/-- The whole apply loop with its two counters (content.js:137-261). -/
def applyLoop (doc : Doc) : List JSVal → Nat → Nat → Except JsErr (Nat × Nat × Doc)
  | [], u, s => .ok (u, s, doc)
  | m :: ms, u, s => do
      let r ← applyOne doc m
      match r.1 with
      | .updated => applyLoop r.2 ms (u + 1) s
      | .skipped => applyLoop r.2 ms u (s + 1)

/-! ### The message listener -/

inductive Response where
  | fields (fs : List FieldDescriptor)
  | counts (updated skipped : Nat)
  | error (msg : String)
deriving DecidableEq

/-- The strict equality `v === "lit"`. -/
def jsStrictEqStr (v : JSVal) (s : String) : Bool :=
  match v with
  | .str t => decide (t = s)
  | _ => false

/-- The body of the `chrome.runtime.onMessage` listener (content.js:127-265),
before the top-level catch; `none` means no `sendResponse` call was made. -/
def onMessageBody (doc : Doc) (msg : JSVal) : Except JsErr (Option Response × Doc) := do
  if jsStrictEqStr (jsGet msg "type") "EXTRACT_FORM_FIELDS" then do
    let fs ← extractFieldsE doc
    return (some (.fields fs), doc)
  else if jsStrictEqStr (jsGet msg "type") "APPLY_MAPPINGS" then do
    let ms ← jsForOf (jsOr (jsGet msg "mappings") (.arr .nil))
    let r ← applyLoop doc ms 0 0
    return (some (.counts r.1 r.2.1), r.2.2)
  else return (none, doc)

/-- The listener with its top-level catch (content.js:266-269): a thrown
exception is answered as `{error: message}`. -/
def onMessage (doc : Doc) (msg : JSVal) : Option Response × Doc :=
  match onMessageBody doc msg with
  | .ok r => r
  | .error e => (some (.error e.message), doc)

/-! ### Sanity checks on a concrete page -/

/-- body > (input#name, div > (radio M, radio F), select#country > option US). -/
def sampleDoc : Doc :=
  [{ path := [], tag := "body" },
   { path := [0], tag := "input", attrs := [("id", "name"), ("type", "text")] },
   { path := [1], tag := "div" },
   { path := [1, 0], tag := "input",
     attrs := [("type", "radio"), ("name", "sex"), ("value", "M")], value := "M" },
   { path := [1, 1], tag := "input",
     attrs := [("type", "radio"), ("name", "sex"), ("value", "F")], value := "F" },
   { path := [2], tag := "select", attrs := [("id", "country")] },
   { path := [2, 0], tag := "option", attrs := [("value", "US")] },
   { path := [2, 0, 0], isText := true, text := "United States" }]

/-- A page with two same-name radios that are siblings of one parent. -/
def sibRadioDoc : Doc :=
  [{ path := [], tag := "body" },
   { path := [0], tag := "input", attrs := [("type", "radio"), ("name", "sex"), ("value", "m")] },
   { path := [1], tag := "input", attrs := [("type", "radio"), ("name", "sex"), ("value", "f")] }]

/-- A page with two same-name radios in two different `div` parents. -/
def splitRadioDoc : Doc :=
  [{ path := [], tag := "body" },
   { path := [0], tag := "div" },
   { path := [0, 0], tag := "input", attrs := [("type", "radio"), ("name", "sex")] },
   { path := [1], tag := "div" },
   { path := [1, 0], tag := "input", attrs := [("type", "radio"), ("name", "sex")] }]

/-- A multi-select with options Red, Blue, Green; Green starts selected. -/
def multiSelDoc : Doc :=
  [{ path := [], tag := "body" },
   { path := [0], tag := "select", attrs := [("id", "c"), ("multiple", "")] },
   { path := [0, 0], tag := "option", attrs := [("value", "Red")] },
   { path := [0, 1], tag := "option", attrs := [("value", "Blue")] },
   { path := [0, 2], tag := "option", attrs := [("value", "Green")], selected := true }]

/-- A multi_select mapping carrying the JSON array `["Red","Blue"]`. -/
def multiSelMap : JSVal :=
  JSVal.mkObj [("selector", .str "#c"), ("kind", .str "multi_select"),
    ("value", .str "[\"Red\",\"Blue\"]")]

/-- A multi_select mapping carrying the empty JSON array string. -/
def emptyArrMap : JSVal :=
  JSVal.mkObj [("selector", .str "#c"), ("kind", .str "multi_select"),
    ("value", .str "[]")]

/-! ## Structural stability

The script's writes touch only the `value` / `checked` / `selected` state of
nodes, never their paths, tags or attributes — so selector matching gives the
same answers before and after any sequence of writes.  `sKey` projects the
structural data a selector can observe; `KeyEq` says two documents agree on
it. -/

def sKey (n : DNode) : List Nat × Bool × String × List (String × String) :=
  (n.path, n.isText, n.tag, n.attrs)

def KeyEq (d1 d2 : Doc) : Prop := d1.map sKey = d2.map sKey

/-! ## Counting (claim C1) -/

/-- The mapping's selector is present (truthy) and resolves to an element. -/
def resolvesB (doc : Doc) (m : JSVal) : Bool :=
  jsTruthy (jsGet m "selector") &&
    match querySelectorE doc (jsToString (jsGet m "selector")) with
    | .ok (some _) => true
    | _ => false

/-- A mapping whose write leaves `sampleDoc` unchanged (it writes the value
the field already holds). -/
def mapNoop : JSVal :=
  JSVal.mkObj [("selector", .str "#name"), ("kind", .str "text"), ("value", .str "")]

/-- A mapping whose selector matches nothing. -/
def mapBad : JSVal :=
  JSVal.mkObj [("selector", .str "#zzz"), ("kind", .str "text"), ("value", .str "x")]

/-- Two mappings are admissible variants when they are equal, or differ only
in a declared (string) kind with neither kind spelling multi_select
case-insensitively. -/
def KindVariant (m1 m2 : JSVal) : Prop :=
  m1 = m2 ∨
    (jsGet m1 "selector" = jsGet m2 "selector" ∧
     jsGet m1 "value" = jsGet m2 "value" ∧
     ∃ k1 k2, jsGet m1 "kind" = .str k1 ∧ jsGet m2 "kind" = .str k2 ∧
       ¬(jsToLowerCase k1 = "multi_select") ∧ ¬(jsToLowerCase k2 = "multi_select"))

def mapTextHi : JSVal :=
  JSVal.mkObj [("selector", .str "#name"), ("kind", .str "text"), ("value", .str "hi")]

def mapRadioHi : JSVal :=
  JSVal.mkObj [("selector", .str "#name"), ("kind", .str "RADIO"), ("value", .str "hi")]

def radioDoc : Doc :=
  [{ path := [], tag := "body" },
   { path := [0], tag := "input", attrs := [("type", "radio"), ("name", "g")], checked := true }]

/-- A stopping suffix for the identifier parser. -/
def IdentStop (rest : List Char) : Prop :=
  rest = [] ∨ ∃ c rest2, rest = c :: rest2 ∧ isIdentCh c = false ∧ ¬(c = '\\')

example : cssEscape "sex" = "sex" := by decide

example : cssEscape "a b" = "a\\ b" := by decide

example : cssEscape "1a" = "\\31 a" := by decide

example : cssEscape "-" = "\\-" := by decide

example : cssEscape "a\"b" = "a\\\"b" := by decide

example : jsonParse "[\"Red\",\"Blue\"]" =
    some (.arr (.ofList [.str "Red", .str "Blue"])) := rfl

example : jsonParse "[]" = some (.arr .nil) := rfl

example : jsonParse " [ 1 , -2 ] " = some (.arr (.ofList [.num 1, .num (-2)])) := rfl

example : jsonParse "[\"a\"" = none := rfl

example : jsonParse "[not json]" = none := rfl

example : parseSelList "#name" = some [.base { sAttrs := [⟨"id", "name"⟩] }] := rfl

example : parseSelList "input[name=\"sex\"]:nth-of-type(2)" =
    some [.base { tag := some "input", sAttrs := [⟨"name", "sex"⟩], nths := [2] }] := rfl

example : parseSelList "input, textarea, select" =
    some [.base { tag := some "input" }, .base { tag := some "textarea" },
      .base { tag := some "select" }] := rfl

example : parseSelList "form div:nth-of-type(1) > input:nth-of-type(2)" =
    some [.comb (.comb (.base { tag := some "form" }) .descendant
        { tag := some "div", nths := [1] }) .child
        { tag := some "input", nths := [2] }] := rfl

example : parseSelList "input[type=\"radio\"][name=\"a b\"]" =
    some [.base { tag := some "input", sAttrs := [⟨"type", "radio"⟩, ⟨"name", "a b"⟩] }] := rfl

example : parseSelList "" = none := rfl

example : parseSelList "\x7b\x7d" = none := rfl

example : parseSelList "#\\31 a" = some [.base { sAttrs := [⟨"id", "1a"⟩] }] := rfl

example : buildSelectorE sampleDoc 1 = .ok "#name" := rfl

example : buildSelectorE sampleDoc 3 = .ok "input[name=\"sex\"]:nth-of-type(1)" := rfl

example : buildSelectorE sampleDoc 4 = .ok "input[name=\"sex\"]:nth-of-type(2)" := rfl

example : buildSelectorE sampleDoc 5 = .ok "#country" := rfl

example : querySelectorE sampleDoc "#name" = .ok (some 1) := rfl

example : querySelectorE sampleDoc "input[name=\"sex\"]:nth-of-type(2)" = .ok (some 4) := rfl

example : querySelectorE sampleDoc "#zzz" = .ok none := rfl

example : querySelectorE sampleDoc "@@" = .error selectorSyntaxErr := rfl

example : extractCandidates sampleDoc = .ok [1, 3, 4, 5] := rfl

example :
    applyLoop sampleDoc
      [JSVal.mkObj [("selector", .str "#name"), ("kind", .str "text"), ("value", .str "Alice")],
       JSVal.mkObj [("selector", .str "input[name=\"sex\"]:nth-of-type(2)"),
         ("kind", .str "radio"), ("value", .str "F")],
       JSVal.mkObj [("selector", .str "#country"), ("kind", .str "select"),
         ("value", .str "United States")]] 0 0 =
    .ok (3, 0,
      [{ path := [], tag := "body" },
       { path := [0], tag := "input", attrs := [("id", "name"), ("type", "text")],
         value := "Alice" },
       { path := [1], tag := "div" },
       { path := [1, 0], tag := "input",
         attrs := [("type", "radio"), ("name", "sex"), ("value", "M")], value := "M" },
       { path := [1, 1], tag := "input",
         attrs := [("type", "radio"), ("name", "sex"), ("value", "F")], value := "F",
         checked := true },
       { path := [2], tag := "select", attrs := [("id", "country")] },
       { path := [2, 0], tag := "option", attrs := [("value", "US")], selected := true },
       { path := [2, 0, 0], isText := true, text := "United States" }]) := rfl

example :
    onMessage sampleDoc (JSVal.mkObj [("type", .str "APPLY_MAPPINGS"), ("mappings", .num 5)]) =
      (some (.error "v is not iterable"), sampleDoc) := rfl

theorem keyEq_refl (d : Doc) : KeyEq d d := rfl

theorem keyEq_trans {a b c : Doc} (h1 : KeyEq a b) (h2 : KeyEq b c) : KeyEq a c :=
  h1.trans h2

theorem KeyEq.sameLength {d1 d2 : Doc} (h : KeyEq d1 d2) : d1.length = d2.length := by
  have := congrArg List.length h
  simpa using this

theorem KeyEq.nodeKey {d1 d2 : Doc} (h : KeyEq d1 d2) (i : Nat) :
    (nodeAt d1 i).map sKey = (nodeAt d2 i).map sKey := by
  unfold nodeAt
  rw [← List.getElem?_map, ← List.getElem?_map, h]

theorem KeyEq.isElemAtEq {d1 d2 : Doc} (h : KeyEq d1 d2) (i : Nat) :
    isElemAt d1 i = isElemAt d2 i := by
  have hk := h.nodeKey i
  unfold isElemAt
  cases h1 : nodeAt d1 i <;> cases h2 : nodeAt d2 i <;>
    simp_all [sKey, Prod.ext_iff]

theorem KeyEq.pathAtEq {d1 d2 : Doc} (h : KeyEq d1 d2) (i : Nat) :
    pathAt d1 i = pathAt d2 i := by
  have hk := h.nodeKey i
  unfold pathAt
  cases h1 : nodeAt d1 i <;> cases h2 : nodeAt d2 i <;>
    simp_all [sKey, Prod.ext_iff]

theorem KeyEq.tagAtEq {d1 d2 : Doc} (h : KeyEq d1 d2) (i : Nat) :
    tagAt d1 i = tagAt d2 i := by
  have hk := h.nodeKey i
  unfold tagAt
  cases h1 : nodeAt d1 i <;> cases h2 : nodeAt d2 i <;>
    simp_all [sKey, Prod.ext_iff]

theorem KeyEq.tagLowerAtEq {d1 d2 : Doc} (h : KeyEq d1 d2) (i : Nat) :
    tagLowerAt d1 i = tagLowerAt d2 i := by
  unfold tagLowerAt
  rw [h.tagAtEq]

theorem KeyEq.getAttrEq {d1 d2 : Doc} (h : KeyEq d1 d2) (i : Nat) (name : String) :
    getAttr d1 i name = getAttr d2 i name := by
  have hk := h.nodeKey i
  unfold getAttr
  cases h1 : nodeAt d1 i <;> cases h2 : nodeAt d2 i <;>
    simp_all [sKey, Prod.ext_iff]

theorem KeyEq.getAttrDEq {d1 d2 : Doc} (h : KeyEq d1 d2) (i : Nat) (name dflt : String) :
    getAttrD d1 i name dflt = getAttrD d2 i name dflt := by
  unfold getAttrD
  rw [h.getAttrEq]

theorem KeyEq.hasAttrEq {d1 d2 : Doc} (h : KeyEq d1 d2) (i : Nat) (name : String) :
    hasAttr d1 i name = hasAttr d2 i name := by
  unfold hasAttr
  rw [h.getAttrEq]

/-- Pointwise-equal predicates filter alike. -/
theorem filterCongr {α : Type} {l : List α} {f g : α → Bool} (h : ∀ x ∈ l, f x = g x) :
    l.filter f = l.filter g := by
  induction l with
  | nil => rfl
  | cons a l ih =>
      simp only [List.filter_cons]
      rw [h a (List.mem_cons_self a l), ih fun x hx => h x (List.mem_cons_of_mem a hx)]

theorem findCongr {α : Type} {l : List α} {f g : α → Bool} (h : ∀ x ∈ l, f x = g x) :
    l.find? f = l.find? g := by
  induction l with
  | nil => rfl
  | cons a l ih =>
      simp only [List.find?_cons]
      rw [h a (List.mem_cons_self a l), ih fun x hx => h x (List.mem_cons_of_mem a hx)]

theorem anyCongr {α : Type} {l : List α} {f g : α → Bool} (h : ∀ x ∈ l, f x = g x) :
    l.any f = l.any g := by
  induction l with
  | nil => rfl
  | cons a l ih =>
      simp only [List.any_cons]
      rw [h a (List.mem_cons_self a l), ih fun x hx => h x (List.mem_cons_of_mem a hx)]

theorem allCongr {α : Type} {l : List α} {f g : α → Bool} (h : ∀ x ∈ l, f x = g x) :
    l.all f = l.all g := by
  induction l with
  | nil => rfl
  | cons a l ih =>
      simp only [List.all_cons]
      rw [h a (List.mem_cons_self a l), ih fun x hx => h x (List.mem_cons_of_mem a hx)]

theorem KeyEq.sameTypeSibEq {d1 d2 : Doc} (h : KeyEq d1 d2) (i j : Nat) :
    sameTypeSib d1 i j = sameTypeSib d2 i j := by
  unfold sameTypeSib
  rw [h.isElemAtEq, h.pathAtEq i, h.pathAtEq j, h.tagLowerAtEq i, h.tagLowerAtEq j]

theorem KeyEq.nthOfTypeIdxEq {d1 d2 : Doc} (h : KeyEq d1 d2) (i : Nat) :
    nthOfTypeIdx d1 i = nthOfTypeIdx d2 i := by
  unfold nthOfTypeIdx
  rw [filterCongr fun j _ => h.sameTypeSibEq i j]

theorem KeyEq.attrMatchesEq {d1 d2 : Doc} (h : KeyEq d1 d2) (i : Nat) (a : AttrSel) :
    attrMatches d1 i a = attrMatches d2 i a := by
  unfold attrMatches
  rw [h.getAttrEq]

theorem KeyEq.matchCompoundEq {d1 d2 : Doc} (h : KeyEq d1 d2) (i : Nat) (c : Compound) :
    matchCompound d1 i c = matchCompound d2 i c := by
  unfold matchCompound
  have h2 : c.sAttrs.all (attrMatches d1 i) = c.sAttrs.all (attrMatches d2 i) :=
    allCongr fun a _ => h.attrMatchesEq i a
  have h3 : (c.nths.all fun k => decide (nthOfTypeIdx d1 i = k)) =
      (c.nths.all fun k => decide (nthOfTypeIdx d2 i = k)) :=
    allCongr fun k _ => by rw [h.nthOfTypeIdxEq]
  rw [h.isElemAtEq, h2, h3]
  cases c.tag with
  | none => rfl
  | some t => rw [h.tagLowerAtEq]

theorem KeyEq.parentIdxOfEq {d1 d2 : Doc} (h : KeyEq d1 d2) (i : Nat) :
    parentIdxOf d1 i = parentIdxOf d2 i := by
  unfold parentIdxOf
  rw [h.pathAtEq, h.sameLength]
  cases parentKeyOf (pathAt d2 i) with
  | none => rfl
  | some pp =>
      exact findCongr fun j _ => by rw [h.isElemAtEq, h.pathAtEq]

theorem KeyEq.isStrictAncBEq {d1 d2 : Doc} (h : KeyEq d1 d2) (anc des : Nat) :
    isStrictAncB d1 anc des = isStrictAncB d2 anc des := by
  unfold isStrictAncB
  rw [h.isElemAtEq, h.pathAtEq anc, h.pathAtEq des]

theorem KeyEq.matchComplexEq {d1 d2 : Doc} (h : KeyEq d1 d2) (cx : Complex) (i : Nat) :
    matchComplex d1 cx i = matchComplex d2 cx i := by
  induction cx generalizing i with
  | base c => exact h.matchCompoundEq i c
  | comb rest k c ih =>
      cases k with
      | child =>
          unfold matchComplex
          rw [h.matchCompoundEq, h.parentIdxOfEq]
          cases parentIdxOf d2 i with
          | none => rfl
          | some j => simp only [ih]
      | descendant =>
          unfold matchComplex
          rw [h.matchCompoundEq, h.sameLength,
            anyCongr fun j _ => by rw [h.isStrictAncBEq, ih j]]

theorem KeyEq.matchesSelListEq {d1 d2 : Doc} (h : KeyEq d1 d2) (sels : List Complex) (i : Nat) :
    matchesSelList d1 sels i = matchesSelList d2 sels i := by
  unfold matchesSelList
  induction sels with
  | nil => rfl
  | cons cx sels ih =>
      simp only [List.any_cons]
      rw [h.matchComplexEq cx i, ih]

theorem KeyEq.queryAllEq {d1 d2 : Doc} (h : KeyEq d1 d2) (sels : List Complex) :
    queryAll d1 sels = queryAll d2 sels := by
  unfold queryAll
  rw [h.sameLength, filterCongr fun i _ => h.matchesSelListEq sels i]

theorem KeyEq.querySelectorAllEEq {d1 d2 : Doc} (h : KeyEq d1 d2) (s : String) :
    querySelectorAllE d1 s = querySelectorAllE d2 s := by
  unfold querySelectorAllE
  cases parseSelList s with
  | none => rfl
  | some sels => simp only [h.queryAllEq]

theorem KeyEq.querySelectorEEq {d1 d2 : Doc} (h : KeyEq d1 d2) (s : String) :
    querySelectorE d1 s = querySelectorE d2 s := by
  unfold querySelectorE
  cases parseSelList s with
  | none => rfl
  | some sels => simp only [h.queryAllEq]

theorem set_self {α : Type} : ∀ (l : List α) (i : Nat) (a : α), l[i]? = some a → l.set i a = l
  | [], _, _, h => by simp at h
  | x :: xs, 0, a, h => by
      simp only [List.getElem?_cons_zero, Option.some.injEq] at h
      simp [h]
  | x :: xs, i + 1, a, h => by
      simp only [List.getElem?_cons_succ] at h
      simp [set_self xs i a h]

theorem modifyNode_keyEq (doc : Doc) (i : Nat) (f : DNode → DNode)
    (hf : ∀ n, sKey (f n) = sKey n) : KeyEq (modifyNode doc i f) doc := by
  unfold KeyEq modifyNode
  cases h : nodeAt doc i with
  | none => rfl
  | some n =>
      rw [List.map_set, hf n]
      apply set_self
      have : doc[i]? = some n := h
      rw [List.getElem?_map, this]
      rfl

theorem setCheckedAt_keyEq (doc : Doc) (i : Nat) (b : Bool) :
    KeyEq (setCheckedAt doc i b) doc :=
  modifyNode_keyEq doc i _ fun _ => rfl

theorem setValueAt_keyEq (doc : Doc) (i : Nat) (s : String) :
    KeyEq (setValueAt doc i s) doc :=
  modifyNode_keyEq doc i _ fun _ => rfl

theorem setSelectedAt_keyEq (doc : Doc) (i : Nat) (b : Bool) :
    KeyEq (setSelectedAt doc i b) doc :=
  modifyNode_keyEq doc i _ fun _ => rfl

theorem foldl_keyEq {β : Type} (l : List β) (step : Doc → β → Doc)
    (hstep : ∀ d x, KeyEq (step d x) d) : ∀ doc : Doc, KeyEq (l.foldl step doc) doc := by
  induction l with
  | nil => intro doc; exact keyEq_refl doc
  | cons a l ih => intro doc; exact keyEq_trans (ih (step doc a)) (hstep doc a)

theorem setSelectValue_keyEq (doc : Doc) (i : Nat) (s : String) :
    KeyEq (setSelectValue doc i s) doc := by
  have h1 : ∀ (opts : List Nat) (r : Option Nat),
      KeyEq (match r with
        | some jSel => opts.foldl (fun d j => setSelectedAt d j (decide (j = jSel))) doc
        | none => opts.foldl (fun d j => setSelectedAt d j false) doc) doc := by
    intro opts r
    cases r with
    | none => exact foldl_keyEq _ _ (fun d x => setSelectedAt_keyEq d x false) doc
    | some jSel => exact foldl_keyEq _ _ (fun d x => setSelectedAt_keyEq d x _) doc
  exact h1 (optionsOf doc i) _

theorem selectFold_keyEq (doc : Doc) (options : List Nat) (wanted : List String) :
    ∀ (b0 : Bool) (d0 : Doc),
      KeyEq (wanted.foldl (fun (p : Bool × Doc) w =>
        match selResolveOne doc options w with
        | some opt => (true, setSelectedAt p.2 opt true)
        | none => p) (b0, d0)).2 d0 := by
  induction wanted with
  | nil => intro b0 d0; exact keyEq_refl d0
  | cons w ws ih =>
      intro b0 d0
      simp only [List.foldl_cons]
      cases selResolveOne doc options w with
      | none => exact ih b0 d0
      | some opt => exact keyEq_trans (ih true (setSelectedAt d0 opt true)) (setSelectedAt_keyEq d0 opt true)

/-- Every exit of one apply iteration leaves the structural data unchanged:
the writes touch only value/checked/selected state. -/
theorem applyOne_keyEq {doc : Doc} {m : JSVal} {o : Outcome} {d2 : Doc}
    (h : applyOne doc m = .ok (o, d2)) : KeyEq d2 doc := by
  unfold applyOne at h
  simp only [Bind.bind, Except.bind, pure, Except.pure] at h
  iterate 16 (all_goals try split at h)
  all_goals
    first
    | (exfalso; exact Except.noConfusion h)
    | (simp only [Except.ok.injEq, Prod.mk.injEq] at h
       obtain ⟨h1, h2⟩ := h
       subst h2
       first
       | exact keyEq_refl _
       | exact setCheckedAt_keyEq _ _ _
       | exact setValueAt_keyEq _ _ _
       | exact setSelectValue_keyEq _ _ _
       | exact keyEq_trans (selectFold_keyEq _ _ _ false _)
           (foldl_keyEq _ _ (fun d x => setSelectedAt_keyEq d x false) _))

theorem KeyEq.resolvesBEq {d1 d2 : Doc} (h : KeyEq d1 d2) (m : JSVal) :
    resolvesB d1 m = resolvesB d2 m := by
  unfold resolvesB
  rw [h.querySelectorEEq]

theorem resolvesB_intro {doc : Doc} {m : JSVal} {el : Nat}
    (h1 : ¬((!jsTruthy (jsGet m "selector")) = true))
    (h2 : (match querySelectorE doc (jsToString (jsGet m "selector")) with
           | .ok r => r
           | .error _ => none) = some el) :
    resolvesB doc m = true := by
  unfold resolvesB
  have hb : jsTruthy (jsGet m "selector") = true := by
    cases hby : jsTruthy (jsGet m "selector") with
    | true => rfl
    | false => exact absurd (by rw [hby]; rfl) h1
  rw [hb]
  cases hq : querySelectorE doc (jsToString (jsGet m "selector")) with
  | error e => rw [hq] at h2; exact absurd h2 (by simp)
  | ok r => rw [hq] at h2; subst h2; rfl

/-- An iteration can only report `updated` if its selector resolved. -/
theorem applyOne_resolvesB {doc : Doc} {m : JSVal} {d2 : Doc}
    (h : applyOne doc m = .ok (.updated, d2)) : resolvesB doc m = true := by
  unfold applyOne at h
  simp only [Bind.bind, Except.bind, pure, Except.pure] at h
  iterate 16 (all_goals try split at h)
  all_goals
    first
    | exact Except.noConfusion h
    | (simp only [Except.ok.injEq, Prod.mk.injEq] at h
       exact Outcome.noConfusion h.1)
    | exact resolvesB_intro (by assumption) (by assumption)

/-- Generalized counting invariant of the apply loop: each iteration bumps
exactly one counter, and only resolvable mappings can bump `updated`. -/
theorem applyLoop_spec : ∀ (ms : List JSVal) (doc : Doc) (u0 s0 u s : Nat) (d : Doc),
    applyLoop doc ms u0 s0 = .ok (u, s, d) →
    u + s = u0 + s0 + ms.length ∧ u ≤ u0 + (ms.filter (resolvesB doc)).length := by
  intro ms
  induction ms with
  | nil =>
      intro doc u0 s0 u s d h
      unfold applyLoop at h
      simp only [Except.ok.injEq, Prod.mk.injEq] at h
      obtain ⟨h1, h2, h3⟩ := h
      subst h1; subst h2
      simp
  | cons m ms ih =>
      intro doc u0 s0 u s d h
      unfold applyLoop at h
      simp only [Bind.bind, Except.bind] at h
      cases ha : applyOne doc m with
      | error e => rw [ha] at h; exact Except.noConfusion h
      | ok r =>
          rw [ha] at h
          obtain ⟨o, d1⟩ := r
          have hkey : KeyEq d1 doc := applyOne_keyEq ha
          have hcnt : ms.filter (resolvesB d1) = ms.filter (resolvesB doc) :=
            filterCongr fun x _ => hkey.resolvesBEq x
          cases o with
          | updated =>
              simp only [] at h
              obtain ⟨hsum, hle⟩ := ih d1 (u0 + 1) s0 u s d h
              rw [hcnt] at hle
              have hres : resolvesB doc m = true := applyOne_resolvesB ha
              have hflen : ((m :: ms).filter (resolvesB doc)).length =
                  (ms.filter (resolvesB doc)).length + 1 := by
                simp [List.filter_cons, hres]
              constructor
              · simp only [List.length_cons]; omega
              · rw [hflen]; omega
          | skipped =>
              simp only [] at h
              obtain ⟨hsum, hle⟩ := ih d1 u0 (s0 + 1) u s d h
              rw [hcnt] at hle
              have hflen : (ms.filter (resolvesB doc)).length ≤
                  ((m :: ms).filter (resolvesB doc)).length := by
                simp only [List.filter_cons]
                cases resolvesB doc m <;> simp
              constructor
              · simp only [List.length_cons]; omega
              · omega

/-- C1: a batch of `N` mappings that completes without a top-level
exception reports `updated + skipped = N`, and `updated` is bounded by the
number `K` of mappings whose selectors resolve to an element (resolution
measured against the page as the batch found it). -/
theorem c1_batch_counts (doc : Doc) (ms : List JSVal) (u s : Nat) (d : Doc)
    (h : applyLoop doc ms 0 0 = .ok (u, s, d)) :
    u + s = ms.length ∧ u ≤ (ms.filter (resolvesB doc)).length := by
  have hs := applyLoop_spec ms doc 0 0 u s d h
  simpa using hs

theorem c1_batch_counts_witness :
    1 + 1 = ([mapNoop, mapBad] : List JSVal).length ∧
      1 ≤ (([mapNoop, mapBad] : List JSVal).filter (resolvesB sampleDoc)).length :=
  c1_batch_counts sampleDoc [mapNoop, mapBad] 1 1 sampleDoc (by rfl)

/-! ## Kind immateriality (claim C2) -/

theorem jsToLowerCaseMeth_kind (k : String) :
    jsToLowerCaseMeth (jsOr (.str k) (.str "")) = .ok (jsToLowerCase k) := by
  unfold jsOr
  by_cases hk : k = "" <;> simp [jsTruthy, jsToLowerCaseMeth, hk]

theorem normalizeMultiVal_other {k : String} (hk : ¬(k = "multi_select")) (raw : JSVal) :
    normalizeMultiVal k raw = raw := by
  unfold normalizeMultiVal
  cases raw <;> simp [hk]

/-- One iteration ignores a declared kind that is not multi_select: two
mappings agreeing on selector and value, with (string) kinds neither of
which lower-cases to "multi_select", behave identically. -/
theorem applyOne_kind_irrelevant {doc : Doc} {m1 m2 : JSVal} {k1 k2 : String}
    (hsel : jsGet m1 "selector" = jsGet m2 "selector")
    (hval : jsGet m1 "value" = jsGet m2 "value")
    (hk1 : jsGet m1 "kind" = .str k1) (hk2 : jsGet m2 "kind" = .str k2)
    (h1 : ¬(jsToLowerCase k1 = "multi_select")) (h2 : ¬(jsToLowerCase k2 = "multi_select")) :
    applyOne doc m1 = applyOne doc m2 := by
  unfold applyOne
  simp only [hsel, hval, hk1, hk2, jsToLowerCaseMeth_kind, Bind.bind, Except.bind,
    normalizeMultiVal_other h1, normalizeMultiVal_other h2]

/-- C2: whole batches that differ only in non-multi_select declared kinds
produce identical DOM state and identical updated/skipped counts. -/
theorem c2_kind_immaterial (doc : Doc) (ms1 ms2 : List JSVal)
    (h : List.Forall₂ KindVariant ms1 ms2) (u s : Nat) :
    applyLoop doc ms1 u s = applyLoop doc ms2 u s := by
  induction h generalizing doc u s with
  | nil => rfl
  | cons hm hrest ih =>
      rename_i m1 m2 l1 l2
      unfold applyLoop
      have hone : applyOne doc m1 = applyOne doc m2 := by
        rcases hm with rfl | ⟨hsel, hval, k1, k2, hk1, hk2, h1, h2⟩
        · rfl
        · exact applyOne_kind_irrelevant hsel hval hk1 hk2 h1 h2
      rw [hone]
      simp only [Bind.bind, Except.bind]
      cases applyOne doc m2 with
      | error e => rfl
      | ok r =>
          obtain ⟨o, d1⟩ := r
          cases o with
          | updated => exact ih d1 (u + 1) s
          | skipped => exact ih d1 u (s + 1)

theorem c2_kind_immaterial_witness :
    applyLoop sampleDoc [mapTextHi, mapBad] 0 0 =
      applyLoop sampleDoc [mapRadioHi, mapBad] 0 0 :=
  c2_kind_immaterial sampleDoc [mapTextHi, mapBad] [mapRadioHi, mapBad]
    (.cons (Or.inr ⟨rfl, rfl, "text", "RADIO", rfl, rfl, by decide, by decide⟩)
      (.cons (Or.inl rfl) .nil)) 0 0

/-! ## Local skipping (claim C6) -/

/-- C6: a mapping with an absent/empty selector, a selector on which
`querySelector` throws or finds nothing, or a resolved element of type
`file`, is counted as skipped with no write, and the loop simply moves on
to the remaining mappings.  (The declared kind is assumed to be a string or
absent, per the Mapping schema, so that reading it does not itself throw.) -/
theorem c6_skip_cases (doc : Doc) (m : JSVal) (k : String)
    (hk : jsToLowerCaseMeth (jsOr (jsGet m "kind") (.str "")) = .ok k) :
    (jsTruthy (jsGet m "selector") = false → applyOne doc m = .ok (.skipped, doc)) ∧
    (∀ e, querySelectorE doc (jsToString (jsGet m "selector")) = .error e →
      applyOne doc m = .ok (.skipped, doc)) ∧
    (querySelectorE doc (jsToString (jsGet m "selector")) = .ok none →
      applyOne doc m = .ok (.skipped, doc)) ∧
    (∀ el, querySelectorE doc (jsToString (jsGet m "selector")) = .ok (some el) →
      jsToLowerCase (getAttrD doc el "type" "") = "file" →
      applyOne doc m = .ok (.skipped, doc)) ∧
    (∀ ms u s, applyOne doc m = .ok (.skipped, doc) →
      applyLoop doc (m :: ms) u s = applyLoop doc ms u (s + 1)) := by
  refine ⟨?_, ?_, ?_, ?_, ?_⟩
  · intro hsel
    simp [applyOne, Bind.bind, Except.bind, pure, Except.pure, hk, hsel]
  · intro e hq
    simp only [applyOne, Bind.bind, Except.bind, pure, Except.pure, hk, hq]
    split <;> rfl
  · intro hq
    simp only [applyOne, Bind.bind, Except.bind, pure, Except.pure, hk, hq]
    split <;> rfl
  · intro el hq hty
    simp only [applyOne, Bind.bind, Except.bind, pure, Except.pure, hk, hq, hty]
    split <;> simp
  · intro ms u s hone
    simp [applyLoop, Bind.bind, Except.bind, hone]

theorem c6_skip_cases_witness :
    applyOne sampleDoc (JSVal.mkObj [("kind", .str "text")]) = .ok (.skipped, sampleDoc) :=
  (c6_skip_cases sampleDoc (JSVal.mkObj [("kind", .str "text")]) "text" rfl).1 rfl

/-! ## Checkbox writes (claim C7) -/

/-- C7: a mapping resolving to a checkbox input always counts as updated,
and `checked` is set to true exactly when the lower-cased trimmed string
form of the (normalized) value is one of "true", "yes", "1", "checked",
"on" — a value interpreting to false still performs the write. -/
theorem c7_checkbox (doc : Doc) (m : JSVal) (k : String) (el : Nat)
    (hk : jsToLowerCaseMeth (jsOr (jsGet m "kind") (.str "")) = .ok k)
    (hsel : jsTruthy (jsGet m "selector") = true)
    (hq : querySelectorE doc (jsToString (jsGet m "selector")) = .ok (some el))
    (hty : jsToLowerCase (getAttrD doc el "type" "") = "checkbox") :
    ∃ b, applyOne doc m = .ok (.updated, setCheckedAt doc el b) ∧
      (b = true ↔ jsToLowerCase (jsTrim (jsStringOfNullish (normalizeMultiVal k (jsGet m "value")))) ∈
        (["true", "yes", "1", "checked", "on"] : List String)) := by
  refine ⟨truthyTok (jsToLowerCase (jsTrim (jsStringOfNullish (normalizeMultiVal k (jsGet m "value"))))), ?_, ?_⟩
  · have hfile : ¬(jsToLowerCase (getAttrD doc el "type" "") = "file") := by
      rw [hty]; decide
    simp [applyOne, Bind.bind, Except.bind, pure, Except.pure, hk, hq, hsel, hty, hfile]
  · simp only [truthyTok, Bool.or_eq_true, decide_eq_true_eq, List.mem_cons,
      List.mem_singleton, List.not_mem_nil, or_false]
    constructor
    · intro h
      rcases h with ((((h | h) | h) | h) | h) <;> simp [h]
    · intro h
      rcases h with h | h | h | h | h <;> simp [h]

/-! ## Checked-state preservation (claim C10) -/

theorem getSet_ne {α : Type} :
    ∀ (l : List α) (i : Nat) (a : α) (j : Nat), j ≠ i → (l.set i a)[j]? = l[j]?
  | [], _, _, _, _ => rfl
  | x :: xs, 0, a, 0, h => absurd rfl h
  | x :: xs, 0, a, j + 1, _ => by simp [List.set]
  | x :: xs, i + 1, a, 0, _ => by simp [List.set]
  | x :: xs, i + 1, a, j + 1, h => by
      simp only [List.set, List.getElem?_cons_succ]
      exact getSet_ne xs i a j fun hji => h (by rw [hji])

theorem getSet_self {α : Type} :
    ∀ (l : List α) (i : Nat) (a : α), i < l.length → (l.set i a)[i]? = some a
  | [], i, _, h => absurd h (by simp)
  | x :: xs, 0, a, _ => by simp [List.set]
  | x :: xs, i + 1, a, h => by
      simp only [List.set, List.getElem?_cons_succ]
      exact getSet_self xs i a (by simpa using h)

theorem nodeAt_modify_ne (doc : Doc) (el : Nat) (f : DNode → DNode) (j : Nat) (hne : j ≠ el) :
    nodeAt (modifyNode doc el f) j = nodeAt doc j := by
  unfold modifyNode
  cases h : nodeAt doc el with
  | none => rfl
  | some n => exact getSet_ne doc el (f n) j hne

theorem nodeAt_modify_self (doc : Doc) (el : Nat) (f : DNode → DNode) :
    nodeAt (modifyNode doc el f) el = (nodeAt doc el).map f := by
  unfold modifyNode
  cases h : nodeAt doc el with
  | none => simp [h]
  | some n =>
      have hlt : el < doc.length := by
        by_contra hge
        have hnone : doc[el]? = none := List.getElem?_eq_none (by omega)
        have h2 : nodeAt doc el = none := hnone
        rw [h2] at h
        exact Option.noConfusion h
      have h3 : nodeAt (doc.set el (f n)) el = some (f n) := getSet_self doc el (f n) hlt
      rw [h3]
      rfl

theorem checkedAt_modify_pres (doc : Doc) (el j : Nat) (f : DNode → DNode)
    (hf : ∀ n, (f n).checked = n.checked) :
    checkedAt (modifyNode doc el f) j = checkedAt doc j := by
  by_cases hje : j = el
  · subst hje
    unfold checkedAt
    rw [nodeAt_modify_self]
    cases nodeAt doc j <;> simp [hf]
  · unfold checkedAt
    rw [nodeAt_modify_ne doc el f j hje]

theorem checkedAt_setSelectedAt (doc : Doc) (el : Nat) (b : Bool) (j : Nat) :
    checkedAt (setSelectedAt doc el b) j = checkedAt doc j :=
  checkedAt_modify_pres doc el j (fun n => { n with selected := b }) (fun _ => rfl)

theorem checkedAt_setValueAt (doc : Doc) (el : Nat) (s : String) (j : Nat) :
    checkedAt (setValueAt doc el s) j = checkedAt doc j :=
  checkedAt_modify_pres doc el j (fun n => { n with value := s }) (fun _ => rfl)

theorem checkedAt_setCheckedAt_ne (doc : Doc) (el : Nat) (b : Bool) (j : Nat) (hne : j ≠ el) :
    checkedAt (setCheckedAt doc el b) j = checkedAt doc j := by
  unfold checkedAt setCheckedAt
  rw [nodeAt_modify_ne doc el _ j hne]

theorem checkedAt_setCheckedAt_true_mono {doc : Doc} {j : Nat} (el : Nat)
    (hc : checkedAt doc j = true) : checkedAt (setCheckedAt doc el true) j = true := by
  by_cases hje : j = el
  · subst hje
    unfold checkedAt setCheckedAt
    rw [nodeAt_modify_self]
    cases h : nodeAt doc j with
    | none => rw [checkedAt, h] at hc; exact Bool.noConfusion hc
    | some n => rfl
  · rw [checkedAt_setCheckedAt_ne doc el true j hje]
    exact hc

theorem checked_pres_checkbox {doc : Doc} {el j : Nat} {b : Bool}
    (hty2 : jsToLowerCase (getAttrD doc el "type" "") = "checkbox")
    (hj : ¬(jsToLowerCase (getAttrD doc j "type" "") = "checkbox"))
    (hc : checkedAt doc j = true) : checkedAt (setCheckedAt doc el b) j = true := by
  have hne : j ≠ el := fun he => hj (by rw [he]; exact hty2)
  rw [checkedAt_setCheckedAt_ne doc el b j hne]
  exact hc

theorem checkedAt_foldlDeselect (l : List Nat) :
    ∀ (d0 : Doc) (j : Nat),
      checkedAt (l.foldl (fun d o => setSelectedAt d o false) d0) j = checkedAt d0 j := by
  induction l with
  | nil => intro d0 j; rfl
  | cons a l ih =>
      intro d0 j
      simp only [List.foldl_cons]
      rw [ih (setSelectedAt d0 a false) j, checkedAt_setSelectedAt]

theorem checkedAt_selectFold (doc : Doc) (options : List Nat) (wanted : List String) :
    ∀ (b0 : Bool) (d0 : Doc) (j : Nat),
      checkedAt (wanted.foldl (fun (p : Bool × Doc) w =>
        match selResolveOne doc options w with
        | some opt => (true, setSelectedAt p.2 opt true)
        | none => p) (b0, d0)).2 j = checkedAt d0 j := by
  induction wanted with
  | nil => intro b0 d0 j; rfl
  | cons w ws ih =>
      intro b0 d0 j
      simp only [List.foldl_cons]
      cases selResolveOne doc options w with
      | none => exact ih b0 d0 j
      | some opt =>
          rw [ih true (setSelectedAt d0 opt true) j, checkedAt_setSelectedAt]

theorem checkedAt_setSelectValue (doc : Doc) (i : Nat) (s : String) (j : Nat) :
    checkedAt (setSelectValue doc i s) j = checkedAt doc j := by
  have h1 : ∀ (opts : List Nat) (r : Option Nat),
      checkedAt (match r with
        | some jSel => opts.foldl (fun d o => setSelectedAt d o (decide (o = jSel))) doc
        | none => opts.foldl (fun d o => setSelectedAt d o false) doc) j = checkedAt doc j := by
    intro opts r
    cases r with
    | none =>
        induction opts generalizing doc with
        | nil => rfl
        | cons a l ih => simp only [List.foldl_cons]; rw [ih, checkedAt_setSelectedAt]
    | some jSel =>
        induction opts generalizing doc with
        | nil => rfl
        | cons a l ih => simp only [List.foldl_cons]; rw [ih, checkedAt_setSelectedAt]
  exact h1 (optionsOf doc i) _

/-- One iteration never turns off `checked` on an element whose type
attribute is not `checkbox` (in particular on a radio). -/
theorem applyOne_checked_mono {doc : Doc} {m : JSVal} {o : Outcome} {d1 : Doc}
    (h : applyOne doc m = .ok (o, d1)) (j : Nat)
    (hj : ¬(jsToLowerCase (getAttrD doc j "type" "") = "checkbox"))
    (hc : checkedAt doc j = true) : checkedAt d1 j = true := by
  unfold applyOne at h
  simp only [Bind.bind, Except.bind, pure, Except.pure] at h
  iterate 16 (all_goals try split at h)
  all_goals
    first
    | exact Except.noConfusion h
    | (simp only [Except.ok.injEq, Prod.mk.injEq] at h
       obtain ⟨h1, h2⟩ := h
       subst h2
       first
       | exact hc
       | exact checked_pres_checkbox (by assumption) hj hc
       | exact checkedAt_setCheckedAt_true_mono _ hc
       | (rw [checkedAt_setValueAt]; exact hc)
       | (rw [checkedAt_setSelectValue]; exact hc)
       | (rw [checkedAt_selectFold, checkedAt_foldlDeselect]; exact hc))

theorem applyLoop_checked_mono :
    ∀ (ms : List JSVal) (doc : Doc) (u s u2 s2 : Nat) (d : Doc),
      applyLoop doc ms u s = .ok (u2, s2, d) →
      ∀ j, ¬(jsToLowerCase (getAttrD doc j "type" "") = "checkbox") →
        checkedAt doc j = true → checkedAt d j = true := by
  intro ms
  induction ms with
  | nil =>
      intro doc u s u2 s2 d h j hj hc
      unfold applyLoop at h
      simp only [Except.ok.injEq, Prod.mk.injEq] at h
      rw [← h.2.2]
      exact hc
  | cons m ms ih =>
      intro doc u s u2 s2 d h j hj hc
      unfold applyLoop at h
      simp only [Bind.bind, Except.bind] at h
      cases ha : applyOne doc m with
      | error e => rw [ha] at h; exact Except.noConfusion h
      | ok r =>
          rw [ha] at h
          obtain ⟨o, d1⟩ := r
          have hkey : KeyEq d1 doc := applyOne_keyEq ha
          have hj1 : ¬(jsToLowerCase (getAttrD d1 j "type" "") = "checkbox") := by
            rw [hkey.getAttrDEq]; exact hj
          have hc1 : checkedAt d1 j = true := applyOne_checked_mono ha j hj hc
          cases o with
          | updated => exact ih d1 (u + 1) s u2 s2 d h j hj1 hc1
          | skipped => exact ih d1 u (s + 1) u2 s2 d h j hj1 hc1

/-- C10: the apply loop never assigns `false` to a radio's `checked`: over a
whole batch, any non-checkbox control (radios in particular) that was
checked stays checked; and a mapping resolving to a radio with no matching
group member and a non-truthy value is skipped without any write. -/
theorem c10_radio_never_unchecked (doc : Doc) :
    (∀ (ms : List JSVal) (u s u2 s2 : Nat) (d : Doc),
      applyLoop doc ms u s = .ok (u2, s2, d) →
      ∀ j, ¬(jsToLowerCase (getAttrD doc j "type" "") = "checkbox") →
        checkedAt doc j = true → checkedAt d j = true) ∧
    (∀ (m : JSVal) (k : String) (el : Nat),
      jsToLowerCaseMeth (jsOr (jsGet m "kind") (.str "")) = .ok k →
      jsTruthy (jsGet m "selector") = true →
      querySelectorE doc (jsToString (jsGet m "selector")) = .ok (some el) →
      jsToLowerCase (getAttrD doc el "type" "") = "radio" →
      truthyTok (jsToLowerCase (jsTrim (jsStringOfNullish
        (normalizeMultiVal k (jsGet m "value"))))) = false →
      ((getAttrD doc el "name" "" = "" → applyOne doc m = .ok (.skipped, doc)) ∧
       (∀ G, querySelectorAllE doc
            ("input[type=\"radio\"][name=\"" ++ cssEscape (getAttrD doc el "name" "") ++ "\"]") =
            .ok G →
          radioPick doc G (jsToLowerCase (jsTrim (jsStringOfNullish
            (normalizeMultiVal k (jsGet m "value"))))) = none →
          applyOne doc m = .ok (.skipped, doc)))) := by
  constructor
  · intro ms u s u2 s2 d h j hj hc
    exact applyLoop_checked_mono ms doc u s u2 s2 d h j hj hc
  · intro m k el hk hsel hq hty hv
    have hfile : ¬(jsToLowerCase (getAttrD doc el "type" "") = "file") := by
      rw [hty]; decide
    have hcb : ¬(jsToLowerCase (getAttrD doc el "type" "") = "checkbox") := by
      rw [hty]; decide
    constructor
    · intro hnm
      simp [applyOne, Bind.bind, Except.bind, pure, Except.pure, hk, hsel, hq, hty,
        hfile, hcb, hnm, hv]
    · intro G hG hpick
      simp [applyOne, Bind.bind, Except.bind, pure, Except.pure, hk, hsel, hq, hty,
        hfile, hcb, hG, hpick, hv]

theorem c10_radio_never_unchecked_witness : checkedAt radioDoc 1 = true :=
  (c10_radio_never_unchecked radioDoc).1 [mapBad] 0 0 0 1 radioDoc (by rfl) 1 (by decide) (by rfl)

/-! ## Numeral facts (towards the CSS.escape round-trip) -/

theorem natToBaseAux_zero (b : Nat) : ∀ fuel, natToBaseAux b fuel 0 [] = [] := by
  intro fuel
  cases fuel <;> rfl

theorem natToBaseAux_append (b : Nat) :
    ∀ (fuel n : Nat) (acc : List Char),
      natToBaseAux b fuel n acc = natToBaseAux b fuel n [] ++ acc := by
  intro fuel
  induction fuel with
  | zero => intro n acc; cases n <;> rfl
  | succ fuel ih =>
      intro n acc
      cases n with
      | zero => rfl
      | succ n =>
          have h1 := ih ((n + 1) / b) (digitCh ((n + 1) % b) :: acc)
          have h2 := ih ((n + 1) / b) [digitCh ((n + 1) % b)]
          show natToBaseAux b fuel ((n + 1) / b) (digitCh ((n + 1) % b) :: acc) =
            natToBaseAux b fuel ((n + 1) / b) [digitCh ((n + 1) % b)] ++ acc
          rw [h1, h2]
          simp

theorem digitCh_hex (m : Nat) : isHexDigitCh (digitCh m) = true := by
  unfold digitCh
  split <;> decide

theorem digitCh_dec {m : Nat} (h : m < 10) : isAsciiDigitCh (digitCh m) = true := by
  interval_cases m <;> decide

theorem hexVal_digitCh {m : Nat} (h : m < 16) : hexVal (digitCh m) = m := by
  interval_cases m <;> decide

theorem valFold_append (b a : Nat) (xs ys : List Char) :
    valFold b a (xs ++ ys) = valFold b (valFold b a xs) ys :=
  List.foldl_append _ _ _ _

theorem natToBaseAux_all_hex {b : Nat} (_hb16 : b ≤ 16) :
    ∀ (fuel n : Nat), ∀ c ∈ natToBaseAux b fuel n [], isHexDigitCh c = true := by
  intro fuel
  induction fuel with
  | zero => intro n c hc; exact absurd hc (by simp [natToBaseAux])
  | succ fuel ih =>
      intro n c hc
      cases n with
      | zero => exact absurd hc (by simp [natToBaseAux])
      | succ n =>
          have : natToBaseAux b (fuel + 1) (n + 1) [] =
              natToBaseAux b fuel ((n + 1) / b) [] ++ [digitCh ((n + 1) % b)] := by
            show natToBaseAux b fuel ((n + 1) / b) [digitCh ((n + 1) % b)] = _
            exact natToBaseAux_append b fuel ((n + 1) / b) [digitCh ((n + 1) % b)]
          rw [this] at hc
          rcases List.mem_append.mp hc with hc1 | hc2
          · exact ih ((n + 1) / b) c hc1
          · have hcd : c = digitCh ((n + 1) % b) := by simpa using hc2
            subst hcd
            exact digitCh_hex _

theorem natToBaseAux_all_dec :
    ∀ (fuel n : Nat), ∀ c ∈ natToBaseAux 10 fuel n [], isAsciiDigitCh c = true := by
  intro fuel
  induction fuel with
  | zero => intro n c hc; exact absurd hc (by simp [natToBaseAux])
  | succ fuel ih =>
      intro n c hc
      cases n with
      | zero => exact absurd hc (by simp [natToBaseAux])
      | succ n =>
          have : natToBaseAux 10 (fuel + 1) (n + 1) [] =
              natToBaseAux 10 fuel ((n + 1) / 10) [] ++ [digitCh ((n + 1) % 10)] := by
            show natToBaseAux 10 fuel ((n + 1) / 10) [digitCh ((n + 1) % 10)] = _
            exact natToBaseAux_append 10 fuel ((n + 1) / 10) [digitCh ((n + 1) % 10)]
          rw [this] at hc
          rcases List.mem_append.mp hc with hc1 | hc2
          · exact ih ((n + 1) / 10) c hc1
          · have hcd : c = digitCh ((n + 1) % 10) := by simpa using hc2
            subst hcd
            exact digitCh_dec (Nat.mod_lt _ (by omega))

theorem natToBaseAux_val {b : Nat} (hb : 2 ≤ b) (hb16 : b ≤ 16) :
    ∀ (n fuel : Nat), n ≤ fuel → ∀ a,
      valFold b a (natToBaseAux b fuel n []) =
        a * b ^ (natToBaseAux b fuel n []).length + n := by
  intro n
  induction n using Nat.strong_induction_on with
  | _ n ih =>
      intro fuel hnf a
      cases n with
      | zero => rw [natToBaseAux_zero]; simp [valFold]
      | succ n =>
          cases fuel with
          | zero => omega
          | succ fuel =>
              have hunf : natToBaseAux b (fuel + 1) (n + 1) [] =
                  natToBaseAux b fuel ((n + 1) / b) [] ++ [digitCh ((n + 1) % b)] := by
                show natToBaseAux b fuel ((n + 1) / b) [digitCh ((n + 1) % b)] = _
                exact natToBaseAux_append b fuel ((n + 1) / b) [digitCh ((n + 1) % b)]
              have hmlt : (n + 1) / b < n + 1 := Nat.div_lt_self (by omega) (by omega)
              have hmf : (n + 1) / b ≤ fuel := by omega
              have hih := ih ((n + 1) / b) hmlt fuel hmf a
              rw [hunf, valFold_append, hih]
              have hdig : hexVal (digitCh ((n + 1) % b)) = (n + 1) % b :=
                hexVal_digitCh (lt_of_lt_of_le (Nat.mod_lt _ (by omega)) hb16)
              simp only [valFold, List.foldl_cons, List.foldl_nil, List.length_append,
                List.length_singleton, hdig]
              have hdm : b * ((n + 1) / b) + (n + 1) % b = n + 1 := Nat.div_add_mod (n + 1) b
              rw [pow_succ]
              ring_nf
              ring_nf at hdm ⊢
              nlinarith [hdm]

theorem natToBase_val {b : Nat} (hb : 2 ≤ b) (hb16 : b ≤ 16) (n : Nat) :
    valFold b 0 (natToBase b n) = n := by
  unfold natToBase
  by_cases hn : n = 0
  · subst hn
    simp [valFold, hexVal]
  · rw [if_neg hn]
    have := natToBaseAux_val hb hb16 n n (le_refl n) 0
    rw [this]
    simp

theorem natToBase_inj {b : Nat} (hb : 2 ≤ b) (hb16 : b ≤ 16) {m n : Nat}
    (h : natToBase b m = natToBase b n) : m = n := by
  rw [← natToBase_val hb hb16 m, ← natToBase_val hb hb16 n, h]

theorem natToDec_inj {m n : Nat} (h : natToDec m = natToDec n) : m = n := by
  have hd : natToBase 10 m = natToBase 10 n := congrArg String.data h
  exact natToBase_inj (by omega) (by omega) hd

theorem natToBase_ne_nil (b n : Nat) : natToBase b n ≠ [] := by
  unfold natToBase
  by_cases hn : n = 0
  · simp [hn]
  · rw [if_neg hn]
    cases n with
    | zero => exact absurd rfl hn
    | succ n =>
        show natToBaseAux b n ((n + 1) / b) [digitCh ((n + 1) % b)] ≠ []
        rw [natToBaseAux_append]
        simp

theorem natToBaseAux_len {b : Nat} (hb : 2 ≤ b) :
    ∀ (k n fuel : Nat), n ≤ fuel → n < b ^ k →
      (natToBaseAux b fuel n []).length ≤ k := by
  intro k
  induction k with
  | zero =>
      intro n fuel hnf hnk
      have : n = 0 := by simpa using hnk
      subst this
      rw [natToBaseAux_zero]
      simp
  | succ k ih =>
      intro n fuel hnf hnk
      cases n with
      | zero => rw [natToBaseAux_zero]; simp
      | succ n =>
          cases fuel with
          | zero => omega
          | succ fuel =>
              have hunf : natToBaseAux b (fuel + 1) (n + 1) [] =
                  natToBaseAux b fuel ((n + 1) / b) [] ++ [digitCh ((n + 1) % b)] := by
                show natToBaseAux b fuel ((n + 1) / b) [digitCh ((n + 1) % b)] = _
                exact natToBaseAux_append b fuel ((n + 1) / b) [digitCh ((n + 1) % b)]
              rw [hunf]
              have hmf : (n + 1) / b ≤ fuel := by
                have := Nat.div_lt_self (show 0 < n + 1 by omega) (show 1 < b by omega)
                omega
              have hmk : (n + 1) / b < b ^ k := by
                rw [Nat.div_lt_iff_lt_mul (by omega)]
                calc n + 1 < b ^ (k + 1) := hnk
                _ = b ^ k * b := by rw [pow_succ]
              have := ih ((n + 1) / b) fuel hmf hmk
              simp only [List.length_append, List.length_singleton]
              omega

theorem char_toNat_lt (c : Char) : c.toNat < 1114112 := by
  rcases c.valid with h | ⟨_, h2⟩
  · exact Nat.lt_trans h (by norm_num)
  · exact h2

theorem natToHex_len (c : Char) : (natToHex c.toNat).length ≤ 6 := by
  unfold natToHex natToBase
  by_cases hn : c.toNat = 0
  · simp [hn]
  · rw [if_neg hn]
    exact natToBaseAux_len (by omega) 6 c.toNat c.toNat (le_refl _)
      (lt_trans (char_toNat_lt c) (by norm_num))

/-! ## The CSS escape/parse round-trip -/

theorem char_eq_of_toNat {c d : Char} (h : c.toNat = d.toNat) : c = d :=
  Char.ext (UInt32.toNat.inj h)

theorem ne_of_toNat_ne {c d : Char} (h : ¬(c.toNat = d.toNat)) : ¬(c = d) :=
  fun he => h (by rw [he])

theorem cssCodePoint_toNat {c : Char} (h : ¬(c.toNat = 0)) : cssCodePoint c.toNat = c := by
  unfold cssCodePoint
  rw [if_neg h]
  by_cases hv : Nat.isValidChar c.toNat
  · rw [if_pos hv]
    exact Char.ofNat_toNat c
  · exfalso
    have hofn := Char.ofNat_toNat c
    unfold Char.ofNat at hofn
    rw [dif_neg hv] at hofn
    exact h (by rw [← hofn]; rfl)

theorem takeHex_spec :
    ∀ (ds : List Char) (fuel a : Nat) (rest : List Char),
      (∀ c ∈ ds, isHexDigitCh c = true) → ds.length ≤ fuel →
      (∀ c rest2, rest = c :: rest2 → isHexDigitCh c = false) →
      takeHex fuel a (ds ++ rest) = (valFold 16 a ds, rest) := by
  intro ds
  induction ds with
  | nil =>
      intro fuel a rest _ _ hrest
      cases fuel with
      | zero => simp [takeHex, valFold]
      | succ fuel =>
          cases rest with
          | nil => simp [takeHex, valFold]
          | cons c rest2 => simp [takeHex, hrest c rest2 rfl, valFold]
  | cons d ds ih =>
      intro fuel a rest hds hlen hrest
      cases fuel with
      | zero => simp at hlen
      | succ fuel =>
          have hd : isHexDigitCh d = true := hds d (by simp)
          simp only [List.cons_append, takeHex, hd, if_true, List.append_eq]
          rw [ih fuel (a * 16 + hexVal d) rest (fun c hc => hds c (by simp [hc]))
            (by simpa using hlen) hrest]
          simp [valFold]

theorem natToHex_all_hex (c : Char) (h0 : ¬(c.toNat = 0)) :
    ∀ x ∈ natToHex c.toNat, isHexDigitCh x = true := by
  intro x hx
  unfold natToHex natToBase at hx
  rw [if_neg h0] at hx
  exact natToBaseAux_all_hex (le_refl 16) c.toNat c.toNat x hx

theorem parseEscape_hex (c : Char) (h0 : ¬(c.toNat = 0)) (rest : List Char) :
    parseEscape (natToHex c.toNat ++ ' ' :: rest) = some (c, rest) := by
  obtain ⟨d, ds, hds⟩ : ∃ d ds, natToHex c.toNat = d :: ds := by
    cases hh : natToHex c.toNat with
    | nil => exact absurd hh (natToBase_ne_nil 16 c.toNat)
    | cons d ds => exact ⟨d, ds, rfl⟩
  have hall := natToHex_all_hex c h0
  have hlen := natToHex_len c
  have hval : valFold 16 0 (natToHex c.toNat) = c.toNat :=
    natToBase_val (by omega) (by omega) c.toNat
  rw [hds] at hall hlen hval ⊢
  have hd : isHexDigitCh d = true := hall d (by simp)
  simp only [List.cons_append, parseEscape, hd, if_true]
  have ht := takeHex_spec ds 5 (hexVal d) (' ' :: rest)
    (fun x hx => hall x (by simp [hx]))
    (by simp at hlen; omega)
    (by intro x r2 hxr; cases hxr; decide)
  rw [ht]
  have hv2 : valFold 16 (hexVal d) ds = c.toNat := by
    have : valFold 16 0 (d :: ds) = valFold 16 (hexVal d) ds := by
      simp [valFold]
    rw [← this, hval]
  simp only [hv2]
  have hws : cssWSCh ' ' = true := by decide
  simp [hws, cssCodePoint_toNat h0]

theorem parseEscape_lit {c : Char} (hhex : isHexDigitCh c = false) (hnl : ¬(c = '\n'))
    (rest : List Char) : parseEscape (c :: rest) = some (c, rest) := by
  simp [parseEscape, hhex, hnl]

theorem backslash_not_identCh : isIdentCh '\\' = false := by decide

/-- One escaped source character is consumed by the identifier parser as the
(NUL-scrubbed) character itself. -/
theorem parseIdentAux_escStep (i : Nat) (f : Option Char) (n : Nat) (c : Char)
    (fuel : Nat) (acc rest : List Char) :
    parseIdentAux (fuel + 1) acc (cssEscapeChar i f n c ++ rest) =
      parseIdentAux fuel (nulScrubChar c :: acc) rest := by
  unfold cssEscapeChar nulScrubChar
  by_cases h0 : c.toNat = 0
  · rw [if_pos h0, if_pos h0]
    show parseIdentAux (fuel + 1) acc (Char.ofNat 0xFFFD :: rest) = _
    simp [parseIdentAux, isIdentCh]
  rw [if_neg h0, if_neg h0]
  have hesc : ∀ rest2 : List Char,
      parseIdentAux (fuel + 1) acc ('\\' :: (natToHex c.toNat ++ [' ']) ++ rest2) =
        parseIdentAux fuel (c :: acc) rest2 := by
    intro rest2
    have hx : ('\\' :: (natToHex c.toNat ++ [' '])) ++ rest2 =
        '\\' :: (natToHex c.toNat ++ ' ' :: rest2) := by simp
    rw [hx]
    simp [parseIdentAux, backslash_not_identCh, parseEscape_hex c h0 rest2]
  split
  · exact hesc rest
  split
  · exact hesc rest
  split
  · exact hesc rest
  split
  · -- lone dash
    rename_i hcond
    simp only [Bool.and_eq_true, decide_eq_true_eq] at hcond
    have hc45 : c = '-' := char_eq_of_toNat (by simpa using hcond.2)
    subst hc45
    show parseIdentAux (fuel + 1) acc ('\\' :: '-' :: rest) = _
    rw [show ('\\' :: '-' :: rest : List Char) = '\\' :: ('-' :: rest) from rfl]
    simp [parseIdentAux, backslash_not_identCh,
      @parseEscape_lit '-' (by decide) (by decide) rest]
  split
  · -- plain identifier character
    rename_i hcond
    have hident : isIdentCh c = true := by
      simp only [isAsciiDigitCh, isAsciiAlphaCh, Bool.or_eq_true, Bool.and_eq_true,
        decide_eq_true_eq] at hcond
      simp only [isIdentCh, isAsciiAlphaCh, isAsciiDigitCh, Bool.or_eq_true,
        Bool.and_eq_true, decide_eq_true_eq]
      omega
    show parseIdentAux (fuel + 1) acc (c :: rest) = _
    simp [parseIdentAux, hident]
  · -- other: single-character escape
    rename_i hc2 hc3 hc4 hc5 hc6
    simp only [isAsciiDigitCh, isAsciiAlphaCh, Bool.or_eq_true, Bool.and_eq_true,
      decide_eq_true_eq, not_or] at hc2 hc6
    have hhex : isHexDigitCh c = false := by
      cases hx : isHexDigitCh c
      · rfl
      · exfalso
        simp only [isHexDigitCh, isAsciiDigitCh, isAsciiAlphaCh, Bool.or_eq_true,
          Bool.and_eq_true, decide_eq_true_eq] at hx
        omega
    have hnl : ¬(c = '\n') := by
      apply ne_of_toNat_ne
      have h10 : ('\n' : Char).toNat = 10 := by decide
      rw [h10]
      omega
    show parseIdentAux (fuel + 1) acc ('\\' :: c :: rest) = _
    rw [show ('\\' :: c :: rest : List Char) = '\\' :: (c :: rest) from rfl]
    simp [parseIdentAux, backslash_not_identCh, parseEscape_lit hhex hnl rest]

theorem cssEscapeChar_len (i : Nat) (f : Option Char) (n : Nat) (c : Char) :
    1 ≤ (cssEscapeChar i f n c).length := by
  unfold cssEscapeChar
  split
  · simp
  split
  · simp
  split
  · simp
  split
  · simp
  split
  · simp
  split
  · simp
  · simp

theorem cssEscapeList_len (i : Nat) (f : Option Char) (n : Nat) :
    ∀ cs : List Char, cs.length ≤ (cssEscapeList i f n cs).length := by
  intro cs
  induction cs generalizing i with
  | nil => simp [cssEscapeList]
  | cons c cs ih =>
      simp only [cssEscapeList, List.length_append, List.length_cons]
      have h1 := cssEscapeChar_len i f n c
      have h2 := ih (i + 1)
      omega

theorem parseIdentAux_escList :
    ∀ (cs : List Char) (i : Nat) (f : Option Char) (n fuel : Nat) (acc rest : List Char),
      parseIdentAux (cs.length + fuel) acc (cssEscapeList i f n cs ++ rest) =
        parseIdentAux fuel ((nulScrub cs).reverse ++ acc) rest := by
  intro cs
  induction cs with
  | nil => intro i f n fuel acc rest; simp [cssEscapeList, nulScrub]
  | cons c cs ih =>
      intro i f n fuel acc rest
      have hL : (c :: cs).length + fuel = (cs.length + fuel) + 1 := by
        simp [List.length_cons]
        omega
      rw [hL]
      show parseIdentAux ((cs.length + fuel) + 1) acc
        ((cssEscapeChar i f n c ++ cssEscapeList (i + 1) f n cs) ++ rest) = _
      rw [List.append_assoc, parseIdentAux_escStep,
        ih (i + 1) f n fuel (nulScrubChar c :: acc) rest]
      simp [nulScrub]

theorem parseIdentAux_stop (fuel : Nat) (acc rest : List Char)
    (h : rest = [] ∨ ∃ c rest2, rest = c :: rest2 ∧ isIdentCh c = false ∧ ¬(c = '\\')) :
    parseIdentAux fuel acc rest = (acc.reverse, rest) := by
  rcases h with rfl | ⟨c, rest2, rfl, h1, h2⟩
  · cases fuel <;> rfl
  · cases fuel with
    | zero => rfl
    | succ fuel => simp [parseIdentAux, h1, h2]

theorem parseIdentAux_esc_full (s : String) (i : Nat) (f : Option Char) (n F : Nat)
    (hF : s.data.length ≤ F) (acc rest : List Char) (hstop : IdentStop rest) :
    parseIdentAux F acc (cssEscapeList i f n s.data ++ rest) =
      (acc.reverse ++ nulScrub s.data, rest) := by
  have hFeq : F = s.data.length + (F - s.data.length) := by omega
  rw [hFeq, parseIdentAux_escList s.data i f n (F - s.data.length) acc rest,
    parseIdentAux_stop _ _ _ hstop]
  simp

theorem parseIdent_esc (s : String) (hne : ¬(s.data = [])) (rest : List Char)
    (hstop : IdentStop rest) :
    parseIdent ((cssEscape s).data ++ rest) = some (⟨nulScrub s.data⟩, rest) := by
  unfold parseIdent cssEscape
  have hF : s.data.length ≤ ((cssEscapeList 0 s.data.head? s.data.length s.data) ++ rest).length := by
    have := cssEscapeList_len 0 s.data.head? s.data.length s.data
    simp only [List.length_append]
    omega
  rw [parseIdentAux_esc_full s 0 s.data.head? s.data.length _ hF [] rest hstop]
  have hnn : ¬(nulScrub s.data = []) := by
    simp [nulScrub]
    exact hne
  simp [hnn]

/-- Plain identifier characters are consumed verbatim. -/
theorem parseIdentAux_chars :
    ∀ (cs : List Char), (∀ c ∈ cs, isIdentCh c = true) →
      ∀ (fuel : Nat) (acc rest : List Char),
        parseIdentAux (cs.length + fuel) acc (cs ++ rest) =
          parseIdentAux fuel (cs.reverse ++ acc) rest := by
  intro cs
  induction cs with
  | nil => intro _ fuel acc rest; simp
  | cons c cs ih =>
      intro hall fuel acc rest
      have hL : (c :: cs).length + fuel = (cs.length + fuel) + 1 := by
        simp [List.length_cons]
        omega
      rw [hL]
      show parseIdentAux ((cs.length + fuel) + 1) acc (c :: (cs ++ rest)) = _
      have hc : isIdentCh c = true := hall c (by simp)
      have hstep : parseIdentAux ((cs.length + fuel) + 1) acc (c :: (cs ++ rest)) =
          parseIdentAux (cs.length + fuel) (c :: acc) (cs ++ rest) := by
        simp [parseIdentAux, hc]
      rw [hstep, ih (fun x hx => hall x (by simp [hx])) fuel (c :: acc) rest]
      simp

theorem parseIdent_chars (s : String) (hne : ¬(s.data = []))
    (hall : ∀ c ∈ s.data, isIdentCh c = true) (rest : List Char) (hstop : IdentStop rest) :
    parseIdent (s.data ++ rest) = some (s, rest) := by
  unfold parseIdent
  have hFeq : (s.data ++ rest).length = s.data.length + rest.length := by simp
  rw [hFeq, parseIdentAux_chars s.data hall rest.length [] rest,
    parseIdentAux_stop _ _ _ hstop]
  simp [hne]

/-- One escaped source character is consumed by the string parser as the
(NUL-scrubbed) character itself. -/
theorem parseStrBody_escStep (i : Nat) (f : Option Char) (n : Nat) (c : Char)
    (fuel : Nat) (acc rest : List Char) :
    parseStrBody (fuel + 1) acc (cssEscapeChar i f n c ++ rest) =
      parseStrBody fuel (nulScrubChar c :: acc) rest := by
  unfold cssEscapeChar nulScrubChar
  by_cases h0 : c.toNat = 0
  · rw [if_pos h0, if_pos h0]
    show parseStrBody (fuel + 1) acc (Char.ofNat 0xFFFD :: rest) = _
    simp [parseStrBody]
  rw [if_neg h0, if_neg h0]
  have hesc : ∀ rest2 : List Char,
      parseStrBody (fuel + 1) acc ('\\' :: (natToHex c.toNat ++ [' ']) ++ rest2) =
        parseStrBody fuel (c :: acc) rest2 := by
    intro rest2
    have hx : ('\\' :: (natToHex c.toNat ++ [' '])) ++ rest2 =
        '\\' :: (natToHex c.toNat ++ ' ' :: rest2) := by simp
    rw [hx]
    simp [parseStrBody, parseEscape_hex c h0 rest2]
  split
  · exact hesc rest
  split
  · exact hesc rest
  split
  · exact hesc rest
  split
  · -- lone dash
    rename_i hcond
    simp only [Bool.and_eq_true, decide_eq_true_eq] at hcond
    have hc45 : c = '-' := char_eq_of_toNat (by simpa using hcond.2)
    subst hc45
    show parseStrBody (fuel + 1) acc ('\\' :: '-' :: rest) = _
    rw [show ('\\' :: '-' :: rest : List Char) = '\\' :: ('-' :: rest) from rfl]
    simp [parseStrBody, @parseEscape_lit '-' (by decide) (by decide) rest]
  split
  · -- plain identifier character: also plain inside a string
    rename_i hcond
    have harith : c.toNat ≥ 128 ∨ c.toNat = 45 ∨ c.toNat = 95 ∨
        (48 ≤ c.toNat ∧ c.toNat ≤ 57) ∨
        ((97 ≤ c.toNat ∧ c.toNat ≤ 122) ∨ (65 ≤ c.toNat ∧ c.toNat ≤ 90)) := by
      simp only [isAsciiDigitCh, isAsciiAlphaCh, Bool.or_eq_true, Bool.and_eq_true,
        decide_eq_true_eq] at hcond
      omega
    have hq : ¬(c = '"') := by
      apply ne_of_toNat_ne
      have h34 : ('"' : Char).toNat = 34 := by decide
      rw [h34]
      omega
    have hbs : ¬(c = '\\') := by
      apply ne_of_toNat_ne
      have h92 : ('\\' : Char).toNat = 92 := by decide
      rw [h92]
      omega
    have hnl2 : ¬(c = '\n') := by
      apply ne_of_toNat_ne
      have h10 : ('\n' : Char).toNat = 10 := by decide
      rw [h10]
      omega
    show parseStrBody (fuel + 1) acc (c :: rest) = _
    simp [parseStrBody, hq, hbs, hnl2]
  · -- other: single-character escape
    rename_i hc2 hc3 hc4 hc5 hc6
    simp only [isAsciiDigitCh, isAsciiAlphaCh, Bool.or_eq_true, Bool.and_eq_true,
      decide_eq_true_eq, not_or] at hc2 hc6
    have hhex : isHexDigitCh c = false := by
      cases hx : isHexDigitCh c
      · rfl
      · exfalso
        simp only [isHexDigitCh, isAsciiDigitCh, isAsciiAlphaCh, Bool.or_eq_true,
          Bool.and_eq_true, decide_eq_true_eq] at hx
        omega
    have hnl : ¬(c = '\n') := by
      apply ne_of_toNat_ne
      have h10 : ('\n' : Char).toNat = 10 := by decide
      rw [h10]
      omega
    show parseStrBody (fuel + 1) acc ('\\' :: c :: rest) = _
    rw [show ('\\' :: c :: rest : List Char) = '\\' :: (c :: rest) from rfl]
    simp [parseStrBody, parseEscape_lit hhex hnl rest]

theorem parseStrBody_escList :
    ∀ (cs : List Char) (i : Nat) (f : Option Char) (n fuel : Nat) (acc rest : List Char),
      parseStrBody (cs.length + fuel) acc (cssEscapeList i f n cs ++ rest) =
        parseStrBody fuel ((nulScrub cs).reverse ++ acc) rest := by
  intro cs
  induction cs with
  | nil => intro i f n fuel acc rest; simp [cssEscapeList, nulScrub]
  | cons c cs ih =>
      intro i f n fuel acc rest
      have hL : (c :: cs).length + fuel = (cs.length + fuel) + 1 := by
        simp [List.length_cons]
        omega
      rw [hL]
      show parseStrBody ((cs.length + fuel) + 1) acc
        ((cssEscapeChar i f n c ++ cssEscapeList (i + 1) f n cs) ++ rest) = _
      rw [List.append_assoc, parseStrBody_escStep,
        ih (i + 1) f n fuel (nulScrubChar c :: acc) rest]
      simp [nulScrub]

/-- Closing quote after escaped content: the parsed string literal is the
NUL-scrubbed source value. -/
theorem parseStrBody_esc (s : String) (F : Nat) (hF : s.data.length + 1 ≤ F)
    (rest : List Char) :
    parseStrBody F [] ((cssEscape s).data ++ '"' :: rest) = some (⟨nulScrub s.data⟩, rest) := by
  unfold cssEscape
  have hFeq : F = s.data.length + (F - s.data.length - 1 + 1) := by omega
  rw [hFeq, parseStrBody_escList s.data 0 s.data.head? s.data.length _ [] ('"' :: rest)]
  simp [parseStrBody]

theorem c7_checkbox_witness :
    ∃ b, applyOne
        [{ path := [], tag := "body" },
         { path := [0], tag := "input", attrs := [("id", "cb"), ("type", "checkbox")] }]
        (JSVal.mkObj [("selector", .str "#cb"), ("kind", .str "checkbox"), ("value", .str "false")]) =
      .ok (.updated,
        setCheckedAt
          [{ path := [], tag := "body" },
           { path := [0], tag := "input", attrs := [("id", "cb"), ("type", "checkbox")] }] 1 b) ∧
      (b = true ↔ jsToLowerCase (jsTrim (jsStringOfNullish (normalizeMultiVal "checkbox"
          (jsGet (JSVal.mkObj [("selector", .str "#cb"), ("kind", .str "checkbox"),
            ("value", .str "false")]) "value")))) ∈
        (["true", "yes", "1", "checked", "on"] : List String)) :=
  c7_checkbox
    [{ path := [], tag := "body" },
     { path := [0], tag := "input", attrs := [("id", "cb"), ("type", "checkbox")] }]
    (JSVal.mkObj [("selector", .str "#cb"), ("kind", .str "checkbox"), ("value", .str "false")])
    "checkbox" 1 rfl rfl rfl rfl

/-! ## Parsing the selectors the script builds -/

theorem identCh_not_ws (c : Char) (h : isIdentCh c = true) : cssWSCh c = false := by
  simp only [isIdentCh, isAsciiAlphaCh, isAsciiDigitCh, Bool.or_eq_true, Bool.and_eq_true,
    decide_eq_true_eq] at h
  cases hw : cssWSCh c
  · rfl
  · exfalso
    simp only [cssWSCh, Bool.or_eq_true, decide_eq_true_eq] at hw
    have hn : c.toNat = 32 ∨ c.toNat = 9 ∨ c.toNat = 10 ∨ c.toNat = 12 ∨ c.toNat = 13 := by
      rcases hw with (((h1 | h1) | h1) | h1) | h1
      · left; rw [h1]; decide
      · right; left; rw [h1]; decide
      · right; right; left; rw [h1]; decide
      · right; right; right; left; exact h1
      · right; right; right; right; rw [h1]; decide
    omega

theorem skipCssWs_cons (c : Char) (cs : List Char) (h : cssWSCh c = false) :
    skipCssWs (c :: cs) = c :: cs := by
  simp [skipCssWs, List.dropWhile_cons, h]

theorem parseCompoundRest_attr (an : String) (h1 : ¬(an.data = []))
    (h2 : ∀ c ∈ an.data, isIdentCh c = true) (v : String) (fuel : Nat) (acc : Compound)
    (tail : List Char) :
    parseCompoundRest (fuel + 1) acc
        ('[' :: (an.data ++ '=' :: '"' :: ((cssEscape v).data ++ '"' :: ']' :: tail))) =
      parseCompoundRest fuel
        { acc with sAttrs := acc.sAttrs ++ [⟨an, ⟨nulScrub v.data⟩⟩] } tail := by
  obtain ⟨a0, as, hdec⟩ : ∃ a0 as, an.data = a0 :: as := by
    cases hd : an.data with
    | nil => exact absurd hd h1
    | cons a0 as => exact ⟨a0, as, rfl⟩
  have ha0 : isIdentCh a0 = true := h2 a0 (by rw [hdec]; simp)
  have hskip1 : skipCssWs (an.data ++ '=' :: '"' :: ((cssEscape v).data ++ '"' :: ']' :: tail)) =
      an.data ++ '=' :: '"' :: ((cssEscape v).data ++ '"' :: ']' :: tail) := by
    rw [hdec]
    exact skipCssWs_cons _ _ (identCh_not_ws a0 ha0)
  have hident := parseIdent_chars an h1 h2
    ('=' :: '"' :: ((cssEscape v).data ++ '"' :: ']' :: tail))
    (Or.inr ⟨'=', _, rfl, by decide, by decide⟩)
  have hskip2 : skipCssWs ('=' :: '"' :: ((cssEscape v).data ++ '"' :: ']' :: tail)) =
      '=' :: '"' :: ((cssEscape v).data ++ '"' :: ']' :: tail) :=
    skipCssWs_cons _ _ (by decide)
  have hskip3 : skipCssWs ('"' :: ((cssEscape v).data ++ '"' :: ']' :: tail)) =
      '"' :: ((cssEscape v).data ++ '"' :: ']' :: tail) :=
    skipCssWs_cons _ _ (by decide)
  have hskip4 : skipCssWs (']' :: tail) = ']' :: tail := skipCssWs_cons _ _ (by decide)
  have hne1 : ¬(('[' : Char) = '#') := by decide
  simp only [parseCompoundRest]
  rw [if_neg hne1, if_pos trivial, hskip1, hident]
  simp [hskip2, hskip3]
  generalize hF : (cssEscape v).length + (tail.length + 1 + 1) + 1 = F
  have hFge : v.data.length + 1 ≤ F := by
    rw [← hF]
    have hlen := cssEscapeList_len 0 v.data.head? v.data.length v.data
    have hd : (cssEscape v).length = (cssEscapeList 0 v.data.head? v.data.length v.data).length :=
      rfl
    omega
  rw [parseStrBody_esc v F hFge (']' :: tail)]
  simp [hskip4]

theorem parseCompoundRest_nilInput (fuel : Nat) (acc : Compound) :
    parseCompoundRest (fuel + 1) acc [] = some (acc, []) := rfl

theorem natToBase_all_dec (n : Nat) : ∀ c ∈ natToBase 10 n, isAsciiDigitCh c = true := by
  unfold natToBase
  by_cases hn : n = 0
  · rw [if_pos hn]
    intro c hc
    have : c = '0' := by simpa using hc
    subst this
    decide
  · rw [if_neg hn]
    exact natToBaseAux_all_dec n n

theorem hexVal_decDigit (c : Char) (h : isAsciiDigitCh c = true) : hexVal c = c.toNat - 48 := by
  simp only [isAsciiDigitCh, Bool.and_eq_true, decide_eq_true_eq] at h
  unfold hexVal
  rw [if_pos h.2]

theorem digit_not_ws (c : Char) (h : isAsciiDigitCh c = true) : cssWSCh c = false :=
  identCh_not_ws c (by simp [isIdentCh, h])

theorem takeDec_chars :
    ∀ (ds : List Char), (∀ c ∈ ds, isAsciiDigitCh c = true) →
      ∀ (fuel : Nat), ds.length ≤ fuel → ∀ (a : Nat) (rest : List Char),
        (rest = [] ∨ ∃ c rest2, rest = c :: rest2 ∧ isAsciiDigitCh c = false) →
        takeDec fuel a (ds ++ rest) = (valFold 10 a ds, rest) := by
  intro ds
  induction ds with
  | nil =>
      intro _ fuel _ a rest hstop
      rcases hstop with rfl | ⟨c, rest2, rfl, hc⟩
      · cases fuel <;> simp [takeDec, valFold]
      · cases fuel with
        | zero => simp [takeDec, valFold]
        | succ fuel => simp [takeDec, valFold, hc]
  | cons d ds ih =>
      intro hall fuel hlen a rest hstop
      obtain ⟨f, rfl⟩ : ∃ f, fuel = f + 1 := ⟨fuel - 1, by simp at hlen; omega⟩
      have hd : isAsciiDigitCh d = true := hall d (by simp)
      show takeDec (f + 1) a (d :: (ds ++ rest)) = _
      have hstep : takeDec (f + 1) a (d :: (ds ++ rest)) =
          takeDec f (a * 10 + (d.toNat - 48)) (ds ++ rest) := by
        simp only [takeDec]
        rw [if_pos hd]
      rw [hstep, ← hexVal_decDigit d hd,
        ih (fun c hc => hall c (by simp [hc])) f (by simp at hlen; omega) _ rest hstop]
      simp [valFold]

theorem parseCompoundRest_nth (k : Nat) (fuel : Nat) (acc : Compound) :
    parseCompoundRest (fuel + 1) acc (nthData k) =
      parseCompoundRest fuel { acc with nths := acc.nths ++ [k] } [] := by
  obtain ⟨d, ds, hdec⟩ : ∃ d ds, natToBase 10 k = d :: ds := by
    cases hd : natToBase 10 k with
    | nil => exact absurd hd (natToBase_ne_nil 10 k)
    | cons d ds => exact ⟨d, ds, rfl⟩
  have hd0 : isAsciiDigitCh d = true := natToBase_all_dec k d (by rw [hdec]; simp)
  have hds : ∀ c ∈ ds, isAsciiDigitCh c = true := fun c hc =>
    natToBase_all_dec k c (by rw [hdec]; simp [hc])
  have hdata : (natToDec k).data = d :: ds := hdec
  have hident := parseIdent_chars "nth-of-type" (by decide) (by decide)
    ('(' :: ((natToDec k).data ++ [')'])) (Or.inr ⟨'(', _, rfl, by decide, by decide⟩)
  have hskipD : skipCssWs (d :: (ds ++ [')'])) = d :: (ds ++ [')']) :=
    skipCssWs_cons _ _ (digit_not_ws d hd0)
  have hvalk : valFold 10 (hexVal d) ds = k := by
    have hv := natToBase_val (b := 10) (by omega) (by omega) k
    rw [hdec] at hv
    simpa [valFold] using hv
  have htake : takeDec (ds.length + 1) (d.toNat - 48) (ds ++ [')']) = (k, [')']) := by
    rw [← hexVal_decDigit d hd0,
      takeDec_chars ds hds (ds.length + 1) (by omega) (hexVal d) [')']
        (Or.inr ⟨')', [], rfl, by decide⟩), hvalk]
  have hskipP : skipCssWs ([')'] : List Char) = [')'] := skipCssWs_cons _ _ (by decide)
  have e1 : ((':' : Char) = '#') = False := eq_false (by decide)
  have e2 : ((':' : Char) = '[') = False := eq_false (by decide)
  show parseCompoundRest (fuel + 1) acc
      (':' :: ("nth-of-type".data ++ '(' :: ((natToDec k).data ++ [')']))) = _
  simp only [parseCompoundRest]
  rw [if_neg (show ¬((':' : Char) = '#') from by decide),
    if_neg (show ¬((':' : Char) = '[') from by decide), if_pos trivial, hident]
  simp [hdata, hskipD, hd0, htake, hskipP]

theorem attrsData_len :
    ∀ attrs : List (String × String), attrs.length ≤ (attrsData attrs).length := by
  intro attrs
  induction attrs with
  | nil => simp [attrsData]
  | cons a attrs ih =>
      simp only [attrsData, List.length_cons, List.length_append]
      omega

theorem parseCompoundRest_attrsData :
    ∀ (attrs : List (String × String)),
      (∀ a ∈ attrs, ¬(a.1.data = []) ∧ ∀ c ∈ a.1.data, isIdentCh c = true) →
      ∀ (fuel : Nat) (acc : Compound) (tail : List Char),
        parseCompoundRest (attrs.length + fuel) acc (attrsData attrs ++ tail) =
          parseCompoundRest fuel
            { acc with sAttrs := acc.sAttrs ++
                attrs.map (fun a => ⟨a.1, ⟨nulScrub a.2.data⟩⟩) } tail := by
  intro attrs
  induction attrs with
  | nil => intro _ fuel acc tail; simp [attrsData]
  | cons a attrs ih =>
      intro hall fuel acc tail
      have ha := hall a (by simp)
      have hL : (a :: attrs).length + fuel = (attrs.length + fuel) + 1 := by
        simp only [List.length_cons]
        omega
      have hshape : attrsData (a :: attrs) ++ tail =
          '[' :: (a.1.data ++ '=' :: '"' ::
            ((cssEscape a.2).data ++ '"' :: ']' :: (attrsData attrs ++ tail))) := by
        simp [attrsData]
      rw [hL, hshape,
        parseCompoundRest_attr a.1 ha.1 ha.2 a.2 (attrs.length + fuel) acc
          (attrsData attrs ++ tail),
        ih (fun x hx => hall x (by simp [hx])) fuel _ tail]
      simp

theorem skipCssWs_identHead (t : String) (ht1 : ¬(t.data = []))
    (ht2 : ∀ c ∈ t.data, isIdentCh c = true) (X : List Char) :
    skipCssWs (t.data ++ X) = t.data ++ X := by
  obtain ⟨t0, ts, hdec⟩ : ∃ t0 ts, t.data = t0 :: ts := by
    cases hd : t.data with
    | nil => exact absurd hd ht1
    | cons t0 ts => exact ⟨t0, ts, rfl⟩
  rw [hdec]
  exact skipCssWs_cons _ _ (identCh_not_ws t0 (ht2 t0 (by rw [hdec]; simp)))

theorem parseCompound_build (t : String) (ht1 : ¬(t.data = []))
    (ht2 : ∀ c ∈ t.data, isIdentCh c = true)
    (attrs : List (String × String))
    (hattrs : ∀ a ∈ attrs, ¬(a.1.data = []) ∧ ∀ c ∈ a.1.data, isIdentCh c = true)
    (tail : List Char) (hstop : IdentStop (attrsData attrs ++ tail)) :
    parseCompound (t.data ++ (attrsData attrs ++ tail)) =
      parseCompoundRest ((attrsData attrs ++ tail).length + 1 - attrs.length)
        { tag := some t,
          sAttrs := attrs.map (fun a => ⟨a.1, ⟨nulScrub a.2.data⟩⟩) } tail := by
  obtain ⟨t0, ts, hdec⟩ : ∃ t0 ts, t.data = t0 :: ts := by
    cases hd : t.data with
    | nil => exact absurd hd ht1
    | cons t0 ts => exact ⟨t0, ts, rfl⟩
  have ht0 : isIdentCh t0 = true := ht2 t0 (by rw [hdec]; simp)
  have hident := parseIdent_chars t ht1 ht2 (attrsData attrs ++ tail) hstop
  rw [hdec] at hident ⊢
  simp only [List.cons_append] at hident ⊢
  simp only [parseCompound]
  rw [if_pos (show (isIdentCh t0 || t0 = '\\') = true from by simp [ht0]), hident]
  show parseCompoundRest ((attrsData attrs ++ tail).length + 1)
      { tag := some t, sAttrs := [], nths := [] } (attrsData attrs ++ tail) = _
  have hFeq : (attrsData attrs ++ tail).length + 1 =
      attrs.length + ((attrsData attrs ++ tail).length + 1 - attrs.length) := by
    have := attrsData_len attrs
    simp only [List.length_append]
    omega
  conv_lhs => rw [hFeq]
  rw [parseCompoundRest_attrsData attrs hattrs _ _ tail]
  simp

theorem parseCompound_buildFull (t : String) (ht1 : ¬(t.data = []))
    (ht2 : ∀ c ∈ t.data, isIdentCh c = true)
    (attrs : List (String × String))
    (hattrs : ∀ a ∈ attrs, ¬(a.1.data = []) ∧ ∀ c ∈ a.1.data, isIdentCh c = true)
    (hne : ¬(attrs = [])) (nth : Option Nat) :
    parseCompound (t.data ++ (attrsData attrs ++ nthTail nth)) =
      some ({ tag := some t,
              sAttrs := attrs.map (fun a => ⟨a.1, ⟨nulScrub a.2.data⟩⟩),
              nths := nthList nth }, []) := by
  have hstop : IdentStop (attrsData attrs ++ nthTail nth) := by
    cases attrs with
    | nil => exact absurd rfl hne
    | cons a as =>
        exact Or.inr ⟨'[', a.1.data ++ '=' :: '"' ::
          ((cssEscape a.2).data ++ '"' :: ']' :: (attrsData as ++ nthTail nth)),
          by simp [attrsData], by decide, by decide⟩
  rw [parseCompound_build t ht1 ht2 attrs hattrs (nthTail nth) hstop]
  have hlen := attrsData_len attrs
  cases nth with
  | none =>
      have hF : (attrsData attrs ++ nthTail none).length + 1 - attrs.length =
          ((attrsData attrs ++ nthTail none).length - attrs.length) + 1 := by
        simp only [List.length_append]
        omega
      rw [hF]
      show parseCompoundRest _ _ [] = _
      rw [parseCompoundRest_nilInput]
      simp [nthList]
  | some k =>
      have hF : (attrsData attrs ++ nthTail (some k)).length + 1 - attrs.length =
          (((attrsData attrs ++ nthTail (some k)).length - attrs.length - 1) + 1) + 1 := by
        simp only [List.length_append, nthTail, nthData, List.length_cons]
        omega
      rw [hF]
      show parseCompoundRest _ _ (nthData k) = _
      rw [parseCompoundRest_nth]
      rw [parseCompoundRest_nilInput]
      simp [nthList]

theorem parseSelList_build (t : String) (ht1 : ¬(t.data = []))
    (ht2 : ∀ c ∈ t.data, isIdentCh c = true)
    (attrs : List (String × String))
    (hattrs : ∀ a ∈ attrs, ¬(a.1.data = []) ∧ ∀ c ∈ a.1.data, isIdentCh c = true)
    (hne : ¬(attrs = [])) (nth : Option Nat) :
    parseSelList ⟨t.data ++ (attrsData attrs ++ nthTail nth)⟩ =
      some [.base { tag := some t,
                    sAttrs := attrs.map (fun a => ⟨a.1, ⟨nulScrub a.2.data⟩⟩),
                    nths := nthList nth }] := by
  have hskip := skipCssWs_identHead t ht1 ht2 (attrsData attrs ++ nthTail nth)
  have hcomp := parseCompound_buildFull t ht1 ht2 attrs hattrs hne nth
  show parseSelListAux ((t.data ++ (attrsData attrs ++ nthTail nth)).length + 1) []
      (t.data ++ (attrsData attrs ++ nthTail nth)) = _
  simp only [parseSelListAux, hskip, hcomp]
  simp [parseComplexRest, skipCssWs]

theorem parseSelList_hash (id : String) (hid : ¬(id.data = [])) :
    parseSelList ⟨'#' :: (cssEscape id).data⟩ =
      some [.base { sAttrs := [⟨"id", ⟨nulScrub id.data⟩⟩] }] := by
  have hident : parseIdent ((cssEscape id).data) = some (⟨nulScrub id.data⟩, []) := by
    have h := parseIdent_esc id hid [] (Or.inl rfl)
    simpa using h
  have hskip : skipCssWs ('#' :: (cssEscape id).data) = '#' :: (cssEscape id).data :=
    skipCssWs_cons _ _ (by decide)
  have hcomp : parseCompound ('#' :: (cssEscape id).data) =
      some ({ sAttrs := [⟨"id", ⟨nulScrub id.data⟩⟩] }, []) := by
    simp only [parseCompound]
    rw [if_neg (show ¬((isIdentCh '#' || '#' = '\\') = true) from by decide)]
    simp [parseCompoundRest, hident, parseCompoundRest_nilInput]
  show parseSelListAux (('#' :: (cssEscape id).data).length + 1) []
      ('#' :: (cssEscape id).data) = _
  simp only [parseSelListAux, hskip, hcomp]
  simp [parseComplexRest, skipCssWs]

/-! ## Resolution of the built selectors -/

theorem strEq_of_data {s t : String} (h : s.data = t.data) : s = t := by
  cases s
  cases t
  exact congrArg String.mk h

theorem nulScrub_id : ∀ cs : List Char, (∀ c ∈ cs, ¬(c.toNat = 0)) → nulScrub cs = cs := by
  intro cs h
  induction cs with
  | nil => rfl
  | cons c cs ih =>
      have hc : ¬(c.toNat = 0) := h c (by simp)
      have hrest := ih (fun x hx => h x (by simp [hx]))
      simp only [nulScrub, List.map_cons] at hrest ⊢
      rw [hrest]
      simp [nulScrubChar, hc]

theorem filter_range_single (n el : Nat) (p : Nat → Bool) (hel : el < n) (hp : p el = true)
    (huniq : ∀ j, j < n → p j = true → j = el) : (List.range n).filter p = [el] := by
  induction n with
  | zero => omega
  | succ n ih =>
      rw [List.range_succ, List.filter_append]
      by_cases hcase : el = n
      · subst hcase
        have h1 : (List.range el).filter p = [] := by
          rw [List.filter_eq_nil_iff]
          intro a ha hpa
          have halt : a < el := List.mem_range.mp ha
          have := huniq a (by omega) hpa
          omega
        rw [h1]
        simp [hp]
      · have heln : el < n := by omega
        have h2 : p n = false := by
          cases hpn : p n
          · rfl
          · exact absurd (huniq n (by omega) hpn).symm hcase
        rw [ih heln (fun j hj hpj => huniq j (by omega) hpj)]
        simp [h2]

theorem attrMatches_id (doc : Doc) (j : Nat) (idv : String) :
    attrMatches doc j ⟨"id", idv⟩ = decide (getAttr doc j "id" = some idv) := by
  unfold attrMatches
  cases h : getAttr doc j "id" with
  | none => simp
  | some v => simp [ciAttrNames]

theorem matchCompound_idOnly (doc : Doc) (j : Nat) (v : String) :
    matchCompound doc j { sAttrs := [⟨"id", v⟩] } =
      (isElemAt doc j && decide (getAttr doc j "id" = some v)) := by
  unfold matchCompound
  simp [attrMatches_id]

theorem queryAll_hash (doc : Doc) (v : String) :
    queryAll doc [.base { sAttrs := [⟨"id", v⟩] }] =
      (List.range doc.length).filter
        (fun j => isElemAt doc j && decide (getAttr doc j "id" = some v)) := by
  unfold queryAll matchesSelList
  apply filterCongr
  intro j _
  simp [matchComplex, matchCompound_idOnly]

/-- C5: for an element whose `id` attribute is present and non-empty,
`buildSelector` returns `#` + CSS-escaped id, and when that id is NUL-free
and unique among the document's elements, `querySelector` on the returned
selector resolves back to the same element.  (The original claim asserted
this for every element *having* an `id` attribute; an element with `id=""`
falls through to the later rules, see the counterexample.) -/
theorem c5_id_selector (doc : Doc) (el : Nat) (idv : String)
    (hid : getAttr doc el "id" = some idv) (hne : ¬(idv = "")) :
    buildSelectorE doc el = .ok ("#" ++ cssEscape idv) ∧
      ((∀ c ∈ idv.data, ¬(c.toNat = 0)) → el < doc.length → isElemAt doc el = true →
        (∀ j, j < doc.length → isElemAt doc j = true → getAttr doc j "id" = some idv →
          j = el) →
        querySelectorE doc ("#" ++ cssEscape idv) = .ok (some el)) := by
  constructor
  · simp [buildSelectorE, hid, truthyAttr, hne, pure, Except.pure]
  · intro hnul hlt helem huniq
    have hdne : ¬(idv.data = []) := by
      intro h
      apply hne
      cases idv
      simp only at h
      simp [h]
    have hparse := parseSelList_hash idv hdne
    rw [nulScrub_id idv.data hnul] at hparse
    have hveq : (⟨idv.data⟩ : String) = idv := strEq_of_data rfl
    rw [hveq] at hparse
    have hstreq : ("#" ++ cssEscape idv : String) = ⟨'#' :: (cssEscape idv).data⟩ := by
      apply strEq_of_data
      have h1 : ("#" : String).data = ['#'] := rfl
      simp [h1]
    rw [hstreq]
    unfold querySelectorE
    rw [hparse]
    show Except.ok (queryAll doc
      [Complex.base { sAttrs := [⟨"id", idv⟩] }]).head? = Except.ok (some el)
    rw [queryAll_hash,
      filter_range_single doc.length el _ hlt (by simp [helem, hid])
        (fun j hj hpj => by
          simp only [Bool.and_eq_true, decide_eq_true_eq] at hpj
          exact huniq j hj hpj.1 hpj.2)]
    rfl

theorem c5_id_selector_counterexample :
    getAttr [{ path := [], tag := "body" },
             { path := [0], tag := "input", attrs := [("id", ""), ("name", "x")] }] 1 "id" =
        some "" ∧
      buildSelectorE [{ path := [], tag := "body" },
        { path := [0], tag := "input", attrs := [("id", ""), ("name", "x")] }] 1 =
        .ok "input[name=\"x\"]" ∧
      ¬("input[name=\"x\"]" = "#" ++ cssEscape "") :=
  ⟨rfl, rfl, by decide⟩

theorem c5_id_selector_witness :
    buildSelectorE [{ path := [], tag := "body" },
        { path := [0], tag := "input", attrs := [("id", "a")] }] 1 =
      .ok ("#" ++ cssEscape "a") ∧
    querySelectorE [{ path := [], tag := "body" },
        { path := [0], tag := "input", attrs := [("id", "a")] }] ("#" ++ cssEscape "a") =
      .ok (some 1) := by
  have h := c5_id_selector
    [{ path := [], tag := "body" }, { path := [0], tag := "input", attrs := [("id", "a")] }]
    1 "a" rfl (by decide)
  exact ⟨h.1, h.2 (by decide) (by decide) (by decide) (by decide)⟩

/-! ## Radio-group selectors (nth-of-type disambiguation) -/

theorem listIdxOf_append_left {x : Nat} :
    ∀ (l l2 : List Nat) (k : Nat), listIdxOf x l = some k → listIdxOf x (l ++ l2) = some k := by
  intro l
  induction l with
  | nil => intro l2 k h; exact absurd h (by simp [listIdxOf])
  | cons y ys ih =>
      intro l2 k h
      by_cases hcase : y = x
      · simp only [listIdxOf, if_pos hcase] at h
        simp only [List.cons_append, listIdxOf, if_pos hcase]
        exact h
      · simp only [listIdxOf, if_neg hcase] at h
        simp only [List.cons_append, listIdxOf, if_neg hcase]
        cases hys : listIdxOf x ys with
        | none => rw [hys] at h; simp at h
        | some k0 =>
            rw [hys] at h
            show Option.map (· + 1) (listIdxOf x (ys ++ l2)) = some k
            rw [ih l2 k0 hys]
            exact h

theorem listIdxOf_last {x : Nat} :
    ∀ l : List Nat, ¬(x ∈ l) → listIdxOf x (l ++ [x]) = some l.length := by
  intro l
  induction l with
  | nil => intro _; simp [listIdxOf]
  | cons y ys ih =>
      intro hx
      have hyx : ¬(y = x) := fun h => hx (by simp [h])
      simp only [List.cons_append, listIdxOf, if_neg hyx]
      show Option.map (· + 1) (listIdxOf x (ys ++ [x])) = some (y :: ys).length
      rw [ih (fun h => hx (by simp [h]))]
      simp

theorem listIdxOf_getElem {x : Nat} :
    ∀ (l : List Nat) (k : Nat), listIdxOf x l = some k → l[k]? = some x := by
  intro l
  induction l with
  | nil => intro k h; exact absurd h (by simp [listIdxOf])
  | cons y ys ih =>
      intro k h
      by_cases hcase : y = x
      · simp only [listIdxOf, if_pos hcase] at h
        have hk : k = 0 := by simpa using h.symm
        subst hk
        simp [hcase]
      · simp only [listIdxOf, if_neg hcase] at h
        cases hys : listIdxOf x ys with
        | none => rw [hys] at h; simp at h
        | some k0 =>
            rw [hys] at h
            have hk : k = k0 + 1 := by simpa using h.symm
            subst hk
            simpa using ih k0 hys

theorem listIdxOf_filter_range (p : Nat → Bool) :
    ∀ (n el : Nat), el < n → p el = true →
      listIdxOf el ((List.range n).filter p) = some ((List.range el).filter p).length := by
  intro n
  induction n with
  | zero => intro el h; omega
  | succ n ih =>
      intro el hel hp
      rw [List.range_succ, List.filter_append]
      by_cases hcase : el = n
      · subst hcase
        have hnot : ¬(el ∈ (List.range el).filter p) := by
          intro hmem
          have := List.mem_range.mp (List.mem_filter.mp hmem).1
          omega
        have hsing : List.filter p [el] = [el] := by simp [hp]
        rw [hsing]
        exact listIdxOf_last _ hnot
      · have h2 : el < n := by omega
        exact listIdxOf_append_left _ _ _ (ih el h2 hp)

theorem count_range_mono (p : Nat → Bool) {a b : Nat} (h : a ≤ b) :
    ((List.range a).filter p).length ≤ ((List.range b).filter p).length := by
  induction b with
  | zero =>
      have ha : a = 0 := by omega
      simp [ha]
  | succ b ih =>
      by_cases hab : a = b + 1
      · simp [hab]
      · have h2 : a ≤ b := by omega
        have h3 := ih h2
        rw [List.range_succ, List.filter_append, List.length_append]
        omega

theorem count_range_lt (p : Nat → Bool) {j e : Nat} (hje : j < e) (hpj : p j = true) :
    ((List.range j).filter p).length < ((List.range e).filter p).length := by
  have h1 : ((List.range (j + 1)).filter p).length =
      ((List.range j).filter p).length + 1 := by
    rw [List.range_succ, List.filter_append, List.length_append]
    simp [hpj]
  have h2 := count_range_mono p (show j + 1 ≤ e by omega)
  omega

theorem attrMatches_name (doc : Doc) (j : Nat) (nm : String) :
    attrMatches doc j ⟨"name", nm⟩ = decide (getAttr doc j "name" = some nm) := by
  unfold attrMatches
  cases h : getAttr doc j "name" with
  | none => simp
  | some v => simp [ciAttrNames]

theorem queryAll_inputName (doc : Doc) (nm : String) :
    queryAll doc [.base { tag := some "input", sAttrs := [⟨"name", nm⟩] }] =
      (List.range doc.length).filter (fun j => isElemAt doc j &&
        decide ("input" = tagLowerAt doc j) && decide (getAttr doc j "name" = some nm)) := by
  unfold queryAll matchesSelList
  apply filterCongr
  intro j _
  have hlow : jsToLowerCase "input" = "input" := rfl
  simp [matchComplex, matchCompound, attrMatches_name, hlow]

theorem queryAll_inputNameNth (doc : Doc) (nm : String) (k : Nat) :
    queryAll doc [.base { tag := some "input", sAttrs := [⟨"name", nm⟩], nths := [k] }] =
      (List.range doc.length).filter (fun j => isElemAt doc j &&
        decide ("input" = tagLowerAt doc j) && decide (getAttr doc j "name" = some nm) &&
        decide (nthOfTypeIdx doc j = k)) := by
  unfold queryAll matchesSelList
  apply filterCongr
  intro j _
  have hlow : jsToLowerCase "input" = "input" := rfl
  simp [matchComplex, matchCompound, attrMatches_name, hlow, Bool.and_assoc]

theorem nthOfTypeIdx_layout (doc : Doc) (e1 : Nat) (nm : String)
    (H : ∀ j, j < doc.length → isElemAt doc j = true → tagLowerAt doc j = "input" →
      (parentKeyOf (pathAt doc j) = parentKeyOf (pathAt doc e1) ∧
        getAttr doc j "name" = some nm))
    (m : Nat) (hm : m < doc.length) (hme : isElemAt doc m = true)
    (hmt : tagLowerAt doc m = "input") :
    nthOfTypeIdx doc m = 1 + ((List.range m).filter (fun j => isElemAt doc j &&
      decide ("input" = tagLowerAt doc j) &&
      decide (getAttr doc j "name" = some nm))).length := by
  unfold nthOfTypeIdx
  have hpt : ∀ j ∈ List.range m, sameTypeSib doc m j =
      (isElemAt doc j && decide ("input" = tagLowerAt doc j) &&
        decide (getAttr doc j "name" = some nm)) := by
    intro j hj
    have hjm : j < m := List.mem_range.mp hj
    unfold sameTypeSib
    cases hel : isElemAt doc j with
    | false => simp [hel]
    | true =>
        by_cases htj : tagLowerAt doc j = "input"
        · obtain ⟨hpar, hname⟩ := H j (by omega) hel htj
          obtain ⟨hparm, _⟩ := H m hm hme hmt
          simp [hel, htj, hmt, hpar, hparm, hname]
        · have hne : ¬(tagLowerAt doc j = tagLowerAt doc m) := by
            rw [hmt]
            exact htj
          have h2 : ¬(("input" : String) = tagLowerAt doc j) := fun h => htj h.symm
          simp [hel, hne, h2]
  rw [filterCongr hpt]

theorem selGroup_data (nm : String) :
    ("input[name=\"" ++ cssEscape nm ++ "\"]" : String) =
      ⟨("input" : String).data ++ (attrsData [("name", nm)] ++ nthTail none)⟩ := by
  apply strEq_of_data
  have h1 : ("input[name=\"" : String).data =
      'i' :: 'n' :: 'p' :: 'u' :: 't' :: '[' :: 'n' :: 'a' :: 'm' :: 'e' :: '=' :: '"' :: [] := rfl
  have h2 : ("\"]" : String).data = '"' :: ']' :: [] := rfl
  have h3 : ("input" : String).data = 'i' :: 'n' :: 'p' :: 'u' :: 't' :: [] := rfl
  have h4 : ("name" : String).data = 'n' :: 'a' :: 'm' :: 'e' :: [] := rfl
  simp [String.data_append, h1, h2, h3, h4, attrsData, nthTail]

theorem selNth_data (nm : String) (k : Nat) :
    ("input[name=\"" ++ cssEscape nm ++ "\"]:nth-of-type(" ++ natToDec k ++ ")" : String) =
      ⟨("input" : String).data ++ (attrsData [("name", nm)] ++ nthTail (some k))⟩ := by
  apply strEq_of_data
  have h1 : ("input[name=\"" : String).data =
      'i' :: 'n' :: 'p' :: 'u' :: 't' :: '[' :: 'n' :: 'a' :: 'm' :: 'e' :: '=' :: '"' :: [] := rfl
  have h2 : ("\"]:nth-of-type(" : String).data =
      '"' :: ']' :: ':' :: 'n' :: 't' :: 'h' :: '-' :: 'o' :: 'f' :: '-' :: 't' :: 'y' ::
        'p' :: 'e' :: '(' :: [] := rfl
  have h3 : ("input" : String).data = 'i' :: 'n' :: 'p' :: 'u' :: 't' :: [] := rfl
  have h4 : ("name" : String).data = 'n' :: 'a' :: 'm' :: 'e' :: [] := rfl
  have h5 : (")" : String).data = ')' :: [] := rfl
  have h6 : ("nth-of-type" : String).data =
      'n' :: 't' :: 'h' :: '-' :: 'o' :: 'f' :: '-' :: 't' :: 'y' :: 'p' :: 'e' :: [] := rfl
  simp [String.data_append, h1, h2, h3, h4, h5, h6, attrsData, nthTail, nthData]

theorem selNth_inj (nm : String) {a b : Nat}
    (h : ("input[name=\"" ++ cssEscape nm ++ "\"]:nth-of-type(" ++ natToDec a ++ ")" : String) =
      ("input[name=\"" ++ cssEscape nm ++ "\"]:nth-of-type(" ++ natToDec b ++ ")")) :
    a = b := by
  have hd := congrArg String.data h
  simp only [String.data_append, List.append_assoc] at hd
  have h1 := List.append_cancel_left hd
  have h2 := List.append_cancel_left h1
  have h3 := List.append_cancel_left h2
  have h4 := List.append_cancel_right h3
  exact natToDec_inj (strEq_of_data h4)

/-- C4: two radio inputs sharing a `name` attribute and without usable ids
receive distinct selectors `input[name="…"]:nth-of-type(i+1)`, where `i` is
the element's 0-based index (`group.indexOf`) in the document-order
`querySelectorAll` group of same-tag-same-name elements.  The resolution
part of the original claim holds under the additional layout hypothesis
that every `input`-tagged element of the document shares one parent and
carries the group's `name` (the nth-of-type counter is per-parent, so
without that hypothesis resolution fails; see the counterexample). -/
theorem c4_radio_group (doc : Doc) (e1 e2 : Nat) (nm : String)
    (hne12 : ¬(e1 = e2))
    (h1id : getAttr doc e1 "id" = none) (h2id : getAttr doc e2 "id" = none)
    (h1nm : getAttr doc e1 "name" = some nm) (h2nm : getAttr doc e2 "name" = some nm)
    (hnm : ¬(nm = "")) (hnul : ∀ c ∈ nm.data, ¬(c.toNat = 0))
    (h1tag : tagLowerAt doc e1 = "input") (h2tag : tagLowerAt doc e2 = "input")
    (h1ty : jsToLowerCase (getAttrD doc e1 "type" "") = "radio")
    (h2ty : jsToLowerCase (getAttrD doc e2 "type" "") = "radio")
    (h1lt : e1 < doc.length) (h2lt : e2 < doc.length)
    (h1el : isElemAt doc e1 = true) (h2el : isElemAt doc e2 = true) :
    ∃ g i1 i2,
      querySelectorAllE doc ("input[name=\"" ++ cssEscape nm ++ "\"]") = .ok g ∧
      g = (List.range doc.length).filter (fun j => isElemAt doc j &&
        decide ("input" = tagLowerAt doc j) && decide (getAttr doc j "name" = some nm)) ∧
      listIdxOf e1 g = some i1 ∧ listIdxOf e2 g = some i2 ∧
      buildSelectorE doc e1 = .ok ("input[name=\"" ++ cssEscape nm ++
        "\"]:nth-of-type(" ++ natToDec (i1 + 1) ++ ")") ∧
      buildSelectorE doc e2 = .ok ("input[name=\"" ++ cssEscape nm ++
        "\"]:nth-of-type(" ++ natToDec (i2 + 1) ++ ")") ∧
      ¬(("input[name=\"" ++ cssEscape nm ++ "\"]:nth-of-type(" ++
          natToDec (i1 + 1) ++ ")" : String) =
        ("input[name=\"" ++ cssEscape nm ++ "\"]:nth-of-type(" ++
          natToDec (i2 + 1) ++ ")")) ∧
      ((∀ j, j < doc.length → isElemAt doc j = true → tagLowerAt doc j = "input" →
          (parentKeyOf (pathAt doc j) = parentKeyOf (pathAt doc e1) ∧
            getAttr doc j "name" = some nm)) →
        querySelectorE doc ("input[name=\"" ++ cssEscape nm ++
          "\"]:nth-of-type(" ++ natToDec (i1 + 1) ++ ")") = .ok (some e1) ∧
        querySelectorE doc ("input[name=\"" ++ cssEscape nm ++
          "\"]:nth-of-type(" ++ natToDec (i2 + 1) ++ ")") = .ok (some e2)) := by
  have hid1 : ¬(("input" : String).data = []) := by decide
  have hid2 : ∀ c ∈ ("input" : String).data, isIdentCh c = true := by decide
  have hat : ∀ a ∈ [("name", nm)], ¬(a.1.data = []) ∧
      ∀ c ∈ a.1.data, isIdentCh c = true := by
    intro a ha
    simp only [List.mem_singleton] at ha
    subst ha
    refine ⟨?_, ?_⟩
    · show ¬(("name" : String).data = [])
      decide
    · show ∀ c ∈ ("name" : String).data, isIdentCh c = true
      decide
  have hnemap : (⟨nm.data⟩ : String) = nm := strEq_of_data rfl
  have hparseG : parseSelList ⟨("input" : String).data ++
      (attrsData [("name", nm)] ++ nthTail none)⟩ =
      some [Complex.base { tag := some "input", sAttrs := [⟨"name", nm⟩], nths := [] }] := by
    rw [parseSelList_build "input" hid1 hid2 [("name", nm)] hat (by simp) none]
    simp only [List.map_cons, List.map_nil, nthList]
    rw [nulScrub_id nm.data hnul, hnemap]
  -- the document-order group
  have hQ1 : (isElemAt doc e1 && decide ("input" = tagLowerAt doc e1) &&
      decide (getAttr doc e1 "name" = some nm)) = true := by
    simp [h1el, h1tag, h1nm]
  have hQ2 : (isElemAt doc e2 && decide ("input" = tagLowerAt doc e2) &&
      decide (getAttr doc e2 "name" = some nm)) = true := by
    simp [h2el, h2tag, h2nm]
  have hqAllG : querySelectorAllE doc ("input[name=\"" ++ cssEscape nm ++ "\"]") =
      .ok ((List.range doc.length).filter (fun j => isElemAt doc j &&
        decide ("input" = tagLowerAt doc j) &&
        decide (getAttr doc j "name" = some nm))) := by
    unfold querySelectorAllE
    rw [selGroup_data nm, hparseG]
    show Except.ok (queryAll doc
      [Complex.base { tag := some "input", sAttrs := [⟨"name", nm⟩] }]) = _
    rw [queryAll_inputName]
  have hidx1 := listIdxOf_filter_range
    (fun j => isElemAt doc j && decide ("input" = tagLowerAt doc j) &&
      decide (getAttr doc j "name" = some nm)) doc.length e1 h1lt hQ1
  have hidx2 := listIdxOf_filter_range
    (fun j => isElemAt doc j && decide ("input" = tagLowerAt doc j) &&
      decide (getAttr doc j "name" = some nm)) doc.length e2 h2lt hQ2
  have hcat : ("input" ++ "[name=\"" : String) = "input[name=\"" := rfl
  have hrc : ¬(("radio" : String) = "checkbox") := by decide
  refine ⟨_, _, _, hqAllG, rfl, hidx1, hidx2, ?_, ?_, ?_, ?_⟩
  · simp [buildSelectorE, h1id, h1nm, truthyAttr, hnm, h1tag, h1ty, hcat, hqAllG, hidx1,
      hrc, pure, Except.pure, Bind.bind, Except.bind]
  · simp [buildSelectorE, h2id, h2nm, truthyAttr, hnm, h2tag, h2ty, hcat, hqAllG, hidx2,
      hrc, pure, Except.pure, Bind.bind, Except.bind]
  · intro hsel
    have hne_i : ((List.range e1).filter _).length = ((List.range e2).filter _).length :=
      Nat.add_right_cancel (selNth_inj nm hsel)
    have g1 := listIdxOf_getElem _ _ hidx1
    have g2 := listIdxOf_getElem _ _ hidx2
    rw [hne_i] at g1
    rw [g2] at g1
    exact hne12 (Option.some.inj g1).symm
  · intro H
    have hL4 := nthOfTypeIdx_layout doc e1 nm H
    constructor
    · -- resolve e1
      have hparseN : parseSelList ⟨("input" : String).data ++ (attrsData [("name", nm)] ++
          nthTail (some (((List.range e1).filter (fun j => isElemAt doc j &&
            decide ("input" = tagLowerAt doc j) &&
            decide (getAttr doc j "name" = some nm))).length + 1)))⟩ =
          some [Complex.base
            { tag := some "input", sAttrs := [⟨"name", nm⟩],
              nths := [((List.range e1).filter (fun j => isElemAt doc j &&
                decide ("input" = tagLowerAt doc j) &&
                decide (getAttr doc j "name" = some nm))).length + 1] }] := by
        rw [parseSelList_build "input" hid1 hid2 [("name", nm)] hat (by simp) _]
        simp only [List.map_cons, List.map_nil, nthList]
        rw [nulScrub_id nm.data hnul, hnemap]
      rw [selNth_data]
      unfold querySelectorE
      rw [hparseN]
      show Except.ok (queryAll doc [Complex.base _]).head? = _
      rw [queryAll_inputNameNth]
      have hnth1 : nthOfTypeIdx doc e1 = ((List.range e1).filter (fun j =>
          isElemAt doc j && decide ("input" = tagLowerAt doc j) &&
          decide (getAttr doc j "name" = some nm))).length + 1 := by
        rw [hL4 e1 h1lt h1el h1tag]
        omega
      rw [filter_range_single doc.length e1 _ h1lt
        (by simp [h1el, h1tag, h1nm, hnth1])
        (fun j hj hpj => by
          simp only [Bool.and_eq_true, decide_eq_true_eq] at hpj
          obtain ⟨⟨⟨hje, hjt⟩, hjn⟩, hjnth⟩ := hpj
          have hjt2 : tagLowerAt doc j = "input" := hjt.symm
          have hQj : (isElemAt doc j && decide ("input" = tagLowerAt doc j) &&
              decide (getAttr doc j "name" = some nm)) = true := by
            simp [hje, hjt2, hjn]
          have hnthj := hL4 j hj hje hjt2
          by_contra hnej
          rcases Nat.lt_or_ge j e1 with hlt | hge
          · have := count_range_lt (fun j => isElemAt doc j &&
              decide ("input" = tagLowerAt doc j) &&
              decide (getAttr doc j "name" = some nm)) hlt hQj
            omega
          · have hgt : e1 < j := by omega
            have := count_range_lt (fun j => isElemAt doc j &&
              decide ("input" = tagLowerAt doc j) &&
              decide (getAttr doc j "name" = some nm)) hgt hQ1
            omega)]
      rfl
    · -- resolve e2
      have hparseN : parseSelList ⟨("input" : String).data ++ (attrsData [("name", nm)] ++
          nthTail (some (((List.range e2).filter (fun j => isElemAt doc j &&
            decide ("input" = tagLowerAt doc j) &&
            decide (getAttr doc j "name" = some nm))).length + 1)))⟩ =
          some [Complex.base
            { tag := some "input", sAttrs := [⟨"name", nm⟩],
              nths := [((List.range e2).filter (fun j => isElemAt doc j &&
                decide ("input" = tagLowerAt doc j) &&
                decide (getAttr doc j "name" = some nm))).length + 1] }] := by
        rw [parseSelList_build "input" hid1 hid2 [("name", nm)] hat (by simp) _]
        simp only [List.map_cons, List.map_nil, nthList]
        rw [nulScrub_id nm.data hnul, hnemap]
      rw [selNth_data]
      unfold querySelectorE
      rw [hparseN]
      show Except.ok (queryAll doc [Complex.base _]).head? = _
      rw [queryAll_inputNameNth]
      have hnth2 : nthOfTypeIdx doc e2 = ((List.range e2).filter (fun j =>
          isElemAt doc j && decide ("input" = tagLowerAt doc j) &&
          decide (getAttr doc j "name" = some nm))).length + 1 := by
        rw [hL4 e2 h2lt h2el h2tag]
        omega
      rw [filter_range_single doc.length e2 _ h2lt
        (by simp [h2el, h2tag, h2nm, hnth2])
        (fun j hj hpj => by
          simp only [Bool.and_eq_true, decide_eq_true_eq] at hpj
          obtain ⟨⟨⟨hje, hjt⟩, hjn⟩, hjnth⟩ := hpj
          have hjt2 : tagLowerAt doc j = "input" := hjt.symm
          have hQj : (isElemAt doc j && decide ("input" = tagLowerAt doc j) &&
              decide (getAttr doc j "name" = some nm)) = true := by
            simp [hje, hjt2, hjn]
          have hnthj := hL4 j hj hje hjt2
          by_contra hnej
          rcases Nat.lt_or_ge j e2 with hlt | hge
          · have := count_range_lt (fun j => isElemAt doc j &&
              decide ("input" = tagLowerAt doc j) &&
              decide (getAttr doc j "name" = some nm)) hlt hQj
            omega
          · have hgt : e2 < j := by omega
            have := count_range_lt (fun j => isElemAt doc j &&
              decide ("input" = tagLowerAt doc j) &&
              decide (getAttr doc j "name" = some nm)) hgt hQ2
            omega)]
      rfl

theorem c4_radio_group_counterexample :
    buildSelectorE splitRadioDoc 4 = .ok "input[name=\"sex\"]:nth-of-type(2)" ∧
      querySelectorE splitRadioDoc "input[name=\"sex\"]:nth-of-type(2)" = .ok none ∧
      ¬((none : Option Nat) = some 4) :=
  ⟨rfl, rfl, by decide⟩

theorem c4_radio_group_witness :
    ∃ g i1 i2,
      querySelectorAllE sibRadioDoc ("input[name=\"" ++ cssEscape "sex" ++ "\"]") = .ok g ∧
      g = (List.range sibRadioDoc.length).filter (fun j => isElemAt sibRadioDoc j &&
        decide ("input" = tagLowerAt sibRadioDoc j) &&
        decide (getAttr sibRadioDoc j "name" = some "sex")) ∧
      listIdxOf 1 g = some i1 ∧ listIdxOf 2 g = some i2 ∧
      buildSelectorE sibRadioDoc 1 = .ok ("input[name=\"" ++ cssEscape "sex" ++
        "\"]:nth-of-type(" ++ natToDec (i1 + 1) ++ ")") ∧
      buildSelectorE sibRadioDoc 2 = .ok ("input[name=\"" ++ cssEscape "sex" ++
        "\"]:nth-of-type(" ++ natToDec (i2 + 1) ++ ")") ∧
      ¬(("input[name=\"" ++ cssEscape "sex" ++ "\"]:nth-of-type(" ++
          natToDec (i1 + 1) ++ ")" : String) =
        ("input[name=\"" ++ cssEscape "sex" ++ "\"]:nth-of-type(" ++
          natToDec (i2 + 1) ++ ")")) ∧
      ((∀ j, j < sibRadioDoc.length → isElemAt sibRadioDoc j = true →
          tagLowerAt sibRadioDoc j = "input" →
          (parentKeyOf (pathAt sibRadioDoc j) = parentKeyOf (pathAt sibRadioDoc 1) ∧
            getAttr sibRadioDoc j "name" = some "sex")) →
        querySelectorE sibRadioDoc ("input[name=\"" ++ cssEscape "sex" ++
          "\"]:nth-of-type(" ++ natToDec (i1 + 1) ++ ")") = .ok (some 1) ∧
        querySelectorE sibRadioDoc ("input[name=\"" ++ cssEscape "sex" ++
          "\"]:nth-of-type(" ++ natToDec (i2 + 1) ++ ")") = .ok (some 2)) :=
  c4_radio_group sibRadioDoc 1 2 "sex" (by decide) rfl rfl rfl rfl (by decide) (by decide)
    rfl rfl rfl rfl (by decide) (by decide) rfl rfl

/-! ## Multi-select application (claim C3) -/

theorem length_setSelectedAt (d : Doc) (i : Nat) (b : Bool) :
    (setSelectedAt d i b).length = d.length := by
  unfold setSelectedAt modifyNode
  cases nodeAt d i with
  | none => rfl
  | some n => simp

theorem selectedAt_deselect_self (d : Doc) (a : Nat) :
    selectedAt (setSelectedAt d a false) a = false := by
  unfold selectedAt setSelectedAt
  rw [nodeAt_modify_self]
  cases nodeAt d a <;> simp

theorem selectedAt_select_self (d : Doc) (a : Nat) (b : Bool) (h : a < d.length) :
    selectedAt (setSelectedAt d a b) a = b := by
  unfold selectedAt setSelectedAt
  rw [nodeAt_modify_self]
  cases hn : nodeAt d a with
  | none =>
      exfalso
      have : d[a]? = none := hn
      rw [List.getElem?_eq_none_iff] at this
      omega
  | some n => simp

theorem selectedAt_setSelectedAt_ne (d : Doc) (a : Nat) (b : Bool) (j : Nat) (hne : j ≠ a) :
    selectedAt (setSelectedAt d a b) j = selectedAt d j := by
  unfold selectedAt setSelectedAt
  rw [nodeAt_modify_ne d a _ j hne]

theorem selectedAt_foldlDeselect :
    ∀ (l : List Nat) (d0 : Doc) (j : Nat),
      selectedAt (l.foldl (fun d o => setSelectedAt d o false) d0) j =
        if j ∈ l then false else selectedAt d0 j := by
  intro l
  induction l with
  | nil => intro d0 j; simp
  | cons a l ih =>
      intro d0 j
      simp only [List.foldl_cons]
      rw [ih (setSelectedAt d0 a false) j]
      by_cases hjl : j ∈ l
      · simp [hjl]
      · by_cases hja : j = a
        · subst hja
          simp [hjl, selectedAt_deselect_self]
        · rw [selectedAt_setSelectedAt_ne d0 a false j hja]
          simp [hjl, hja]

theorem length_foldlDeselect :
    ∀ (l : List Nat) (d0 : Doc),
      (l.foldl (fun d o => setSelectedAt d o false) d0).length = d0.length := by
  intro l
  induction l with
  | nil => intro d0; rfl
  | cons a l ih =>
      intro d0
      simp only [List.foldl_cons]
      rw [ih (setSelectedAt d0 a false), length_setSelectedAt]

theorem selResolveOne_mem (doc : Doc) (options : List Nat) (w : String) (o : Nat)
    (h : selResolveOne doc options w = some o) : o ∈ options := by
  unfold selResolveOne at h
  cases h1 : options.find? (fun o => decide (jsToLowerCase (jsTrim (optionValueProp doc o)) = w)) with
  | some o1 =>
      rw [h1] at h
      cases h
      exact List.mem_of_find?_eq_some h1
  | none =>
      rw [h1] at h
      exact List.mem_of_find?_eq_some h

theorem selectFold_fst (doc : Doc) (options : List Nat) :
    ∀ (wanted : List String) (b0 : Bool) (d0 : Doc),
      (wanted.foldl (fun (p : Bool × Doc) w =>
        match selResolveOne doc options w with
        | some opt => (true, setSelectedAt p.2 opt true)
        | none => p) (b0, d0)).1 =
      (b0 || !(decide (wanted.filterMap (selResolveOne doc options) = []))) := by
  intro wanted
  induction wanted with
  | nil => intro b0 d0; simp
  | cons w ws ih =>
      intro b0 d0
      cases hw : selResolveOne doc options w with
      | none =>
          simp only [List.foldl_cons, List.filterMap_cons, hw]
          rw [ih b0 d0]
      | some opt =>
          simp only [List.foldl_cons, List.filterMap_cons, hw]
          rw [ih true (setSelectedAt d0 opt true)]
          simp

theorem selectFold_selected (doc : Doc) (options : List Nat)
    (hopt : ∀ o ∈ options, o < doc.length) :
    ∀ (wanted : List String) (b0 : Bool) (d0 : Doc), d0.length = doc.length →
      ∀ j, selectedAt ((wanted.foldl (fun (p : Bool × Doc) w =>
          match selResolveOne doc options w with
          | some opt => (true, setSelectedAt p.2 opt true)
          | none => p) (b0, d0)).2) j =
        if j ∈ wanted.filterMap (selResolveOne doc options) then true else selectedAt d0 j := by
  intro wanted
  induction wanted with
  | nil => intro b0 d0 hlen j; simp
  | cons w ws ih =>
      intro b0 d0 hlen j
      cases hw : selResolveOne doc options w with
      | none =>
          simp only [List.foldl_cons, List.filterMap_cons, hw]
          rw [ih b0 d0 hlen j]
      | some opt =>
          simp only [List.foldl_cons, List.filterMap_cons, hw]
          have hoptlt : opt < d0.length := by
            rw [hlen]
            exact hopt opt (selResolveOne_mem doc options w opt hw)
          rw [ih true (setSelectedAt d0 opt true) (by rw [length_setSelectedAt, hlen]) j]
          by_cases hjw : j ∈ ws.filterMap (selResolveOne doc options)
          · simp [hjw]
          · by_cases hjo : j = opt
            · subst hjo
              rw [selectedAt_select_self d0 j true hoptlt]
              simp [hjw]
            · rw [selectedAt_setSelectedAt_ne d0 opt true j hjo]
              simp [hjw, hjo]

theorem optionsOf_lt (doc : Doc) (el : Nat) (o : Nat) (h : o ∈ optionsOf doc el) :
    o < doc.length := by
  unfold optionsOf at h
  exact List.mem_range.mp (List.mem_filter.mp h).1

/-- C3 (amended): for a `multi_select` mapping resolving to a
multiple-selection select, when the normalized token list is non-empty the
script deselects every option and then selects exactly the options resolved
from the tokens (value first, else visible text), counting updated iff some
token resolved and skipped otherwise; but when the token list is empty --
e.g. the JSON-array string `'[]'` -- the mapping is skipped *before* any
deselection, leaving previously selected options selected (the original
claim's "all options are first deselected" fails there, see the
counterexample). -/
theorem c3_multi_select (doc : Doc) (m : JSVal) (el : Nat)
    (hk : jsToLowerCaseMeth (jsOr (jsGet m "kind") (.str "")) = .ok "multi_select")
    (hsel : jsTruthy (jsGet m "selector") = true)
    (hq : querySelectorE doc (jsToString (jsGet m "selector")) = .ok (some el))
    (htyf : ¬(jsToLowerCase (getAttrD doc el "type" "") = "file"))
    (htyc : ¬(jsToLowerCase (getAttrD doc el "type" "") = "checkbox"))
    (htyr : ¬(jsToLowerCase (getAttrD doc el "type" "") = "radio"))
    (htag : tagLowerAt doc el = "select")
    (hmult : multipleProp doc el = true) :
    (selWanted (normalizeMultiVal "multi_select" (jsGet m "value")) = [] →
      applyOne doc m = .ok (.skipped, doc)) ∧
    (¬(selWanted (normalizeMultiVal "multi_select" (jsGet m "value")) = []) →
      ∃ doc2,
        applyOne doc m = .ok
          (if (selWanted (normalizeMultiVal "multi_select" (jsGet m "value"))).filterMap
              (selResolveOne doc (optionsOf doc el)) = []
           then Outcome.skipped else Outcome.updated, doc2) ∧
        ∀ j, selectedAt doc2 j =
          if j ∈ (selWanted (normalizeMultiVal "multi_select" (jsGet m "value"))).filterMap
              (selResolveOne doc (optionsOf doc el)) then true
          else if j ∈ optionsOf doc el then false
          else selectedAt doc j) := by
  have htagsel : (tagLowerAt doc el = "select") = True := by simp [htag]
  constructor
  · intro hw
    simp [applyOne, Bind.bind, Except.bind, pure, Except.pure, hk, hsel, hq, htyf, htyc,
      htyr, htagsel, hw]
  · intro hw
    refine ⟨((selWanted (normalizeMultiVal "multi_select" (jsGet m "value"))).foldl
      (fun (p : Bool × Doc) w =>
        match selResolveOne doc (optionsOf doc el) w with
        | some opt => (true, setSelectedAt p.2 opt true)
        | none => p)
      (false, (optionsOf doc el).foldl (fun d o => setSelectedAt d o false) doc)).2, ?_, ?_⟩
    · simp only [applyOne, Bind.bind, Except.bind, pure, Except.pure, hk, hsel, hq, htyf,
        htyc, htyr, htagsel, hmult, hw]
      by_cases hR : (selWanted (normalizeMultiVal "multi_select" (jsGet m "value"))).filterMap
          (selResolveOne doc (optionsOf doc el)) = []
      · simp [selectFold_fst, hR]
      · simp [selectFold_fst, hR]
    · intro j
      rw [selectFold_selected doc (optionsOf doc el)
        (fun o ho => optionsOf_lt doc el o ho)
        (selWanted (normalizeMultiVal "multi_select" (jsGet m "value"))) false
        ((optionsOf doc el).foldl (fun d o => setSelectedAt d o false) doc)
        (length_foldlDeselect (optionsOf doc el) doc) j]
      rw [selectedAt_foldlDeselect (optionsOf doc el) doc j]

theorem c3_multi_select_counterexample :
    applyOne multiSelDoc emptyArrMap = .ok (.skipped, multiSelDoc) ∧
      selectedAt multiSelDoc 4 = true ∧
      (4 : Nat) ∈ optionsOf multiSelDoc 1 :=
  ⟨rfl, rfl, by decide⟩

theorem c3_multi_select_witness :
    (selWanted (normalizeMultiVal "multi_select" (jsGet multiSelMap "value")) = [] →
      applyOne multiSelDoc multiSelMap = .ok (.skipped, multiSelDoc)) ∧
    (¬(selWanted (normalizeMultiVal "multi_select" (jsGet multiSelMap "value")) = []) →
      ∃ doc2,
        applyOne multiSelDoc multiSelMap = .ok
          (if (selWanted (normalizeMultiVal "multi_select" (jsGet multiSelMap "value"))).filterMap
              (selResolveOne multiSelDoc (optionsOf multiSelDoc 1)) = []
           then Outcome.skipped else Outcome.updated, doc2) ∧
        ∀ j, selectedAt doc2 j =
          if j ∈ (selWanted (normalizeMultiVal "multi_select" (jsGet multiSelMap "value"))).filterMap
              (selResolveOne multiSelDoc (optionsOf multiSelDoc 1)) then true
          else if j ∈ optionsOf multiSelDoc 1 then false
          else selectedAt multiSelDoc j) :=
  c3_multi_select multiSelDoc multiSelMap 1 rfl rfl rfl (by decide) (by decide) (by decide)
    rfl rfl

/-! ## Candidate extraction (claim C8) -/

theorem exceptMapM_length (f : Nat → Except JsErr FieldDescriptor) :
    ∀ (l : List Nat) (ys : List FieldDescriptor),
      exceptMapM f l = .ok ys → ys.length = l.length := by
  intro l
  induction l with
  | nil =>
      intro ys h
      simp only [exceptMapM] at h
      cases h
      rfl
  | cons x xs ih =>
      intro ys h
      simp only [exceptMapM, Bind.bind, Except.bind] at h
      cases hf : f x with
      | error e => rw [hf] at h; exact absurd h (by simp)
      | ok y =>
          rw [hf] at h
          cases hrec : exceptMapM f xs with
          | error e => rw [hrec] at h; exact absurd h (by simp)
          | ok ys0 =>
              rw [hrec] at h
              simp only [pure, Except.pure] at h
              cases h
              simp [ih ys0 hrec]

/-- C8 (amended): the extraction candidates are exactly the non-disabled
input/textarea/select elements whose `type` attribute does not lower-case
to hidden, submit, button, reset or file, in document order -- so no
descriptor is ever built for a disabled control or an element with an
excluded type attribute.  (The source applies the type-attribute filter to
*every* candidate, not only to `input` elements, so the original claim's
"all non-excluded input, textarea, and select elements are included" fails
for a textarea or select carrying an excluded `type` attribute; see the
counterexample.)  `extractFields` builds exactly one descriptor per
candidate when it succeeds. -/
theorem c8_extract_candidates (doc : Doc) :
    extractCandidates doc = .ok ((List.range doc.length).filter (fun j =>
      (isElemAt doc j &&
        (decide ("input" = tagLowerAt doc j) || decide ("textarea" = tagLowerAt doc j) ||
          decide ("select" = tagLowerAt doc j)) &&
        !disabledProp doc j) &&
      (!(jsToLowerCase (getAttrD doc j "type" "") = "hidden") &&
        !(jsToLowerCase (getAttrD doc j "type" "") = "submit") &&
        !(jsToLowerCase (getAttrD doc j "type" "") = "button") &&
        !(jsToLowerCase (getAttrD doc j "type" "") = "reset") &&
        !(jsToLowerCase (getAttrD doc j "type" "") = "file")))) ∧
    (∀ C, extractCandidates doc = .ok C →
      ∀ j ∈ C, disabledProp doc j = false ∧
        ¬(jsToLowerCase (getAttrD doc j "type" "") = "hidden") ∧
        ¬(jsToLowerCase (getAttrD doc j "type" "") = "submit") ∧
        ¬(jsToLowerCase (getAttrD doc j "type" "") = "button") ∧
        ¬(jsToLowerCase (getAttrD doc j "type" "") = "reset") ∧
        ¬(jsToLowerCase (getAttrD doc j "type" "") = "file")) ∧
    (∀ fds, extractFieldsE doc = .ok fds →
      ∃ C, extractCandidates doc = .ok C ∧ fds.length = C.length) := by
  have hparse : parseSelList "input, textarea, select" =
      some [.base { tag := some "input" }, .base { tag := some "textarea" },
        .base { tag := some "select" }] := rfl
  have hq : querySelectorAllE doc "input, textarea, select" =
      .ok (queryAll doc [.base { tag := some "input" }, .base { tag := some "textarea" },
        .base { tag := some "select" }]) := by
    unfold querySelectorAllE
    rw [hparse]
  have hchar : extractCandidates doc = .ok ((List.range doc.length).filter (fun j =>
      (isElemAt doc j &&
        (decide ("input" = tagLowerAt doc j) || decide ("textarea" = tagLowerAt doc j) ||
          decide ("select" = tagLowerAt doc j)) &&
        !disabledProp doc j) &&
      (!(jsToLowerCase (getAttrD doc j "type" "") = "hidden") &&
        !(jsToLowerCase (getAttrD doc j "type" "") = "submit") &&
        !(jsToLowerCase (getAttrD doc j "type" "") = "button") &&
        !(jsToLowerCase (getAttrD doc j "type" "") = "reset") &&
        !(jsToLowerCase (getAttrD doc j "type" "") = "file")))) := by
    unfold extractCandidates
    simp only [Bind.bind, Except.bind, hq, pure, Except.pure]
    congr 1
    unfold queryAll
    rw [List.filter_filter, List.filter_filter]
    apply filterCongr
    intro j hj
    have hl1 : jsToLowerCase "input" = "input" := rfl
    have hl2 : jsToLowerCase "textarea" = "textarea" := rfl
    have hl3 : jsToLowerCase "select" = "select" := rfl
    simp only [matchesSelList, List.any_cons, List.any_nil, matchComplex, matchCompound,
      hl1, hl2, hl3, List.all_nil, Bool.and_true, Bool.or_false]
    cases isElemAt doc j <;>
      cases decide ("input" = tagLowerAt doc j) <;>
      cases decide ("textarea" = tagLowerAt doc j) <;>
      cases decide ("select" = tagLowerAt doc j) <;>
      cases disabledProp doc j <;> simp
  refine ⟨hchar, ?_, ?_⟩
  · intro C hC j hj
    rw [hchar] at hC
    cases hC
    have hm := (List.mem_filter.mp hj).2
    simp only [Bool.and_eq_true, Bool.or_eq_true, Bool.not_eq_true', decide_eq_true_eq,
      decide_eq_false_iff_not] at hm
    refine ⟨?_, ?_, ?_, ?_, ?_, ?_⟩ <;> tauto
  · intro fds hfds
    unfold extractFieldsE at hfds
    simp only [Bind.bind, Except.bind, hchar] at hfds
    exact ⟨_, hchar, exceptMapM_length _ _ fds hfds⟩

theorem c8_extract_candidates_counterexample :
    extractCandidates
        [{ path := [], tag := "body" },
         { path := [0], tag := "textarea", attrs := [("type", "submit")] }] = .ok [] ∧
      tagLowerAt [{ path := [], tag := "body" },
        { path := [0], tag := "textarea", attrs := [("type", "submit")] }] 1 = "textarea" ∧
      disabledProp [{ path := [], tag := "body" },
        { path := [0], tag := "textarea", attrs := [("type", "submit")] }] 1 = false ∧
      isElemAt [{ path := [], tag := "body" },
        { path := [0], tag := "textarea", attrs := [("type", "submit")] }] 1 = true :=
  ⟨rfl, rfl, rfl, rfl⟩

/-! ## Top-level error handling (claim C9) -/

/-- C9: when the listener body throws (during extraction or anywhere in an
apply batch), the top-level catch answers with a response carrying the
exception's message as a string-valued error field -- never a field list or
counts -- and the exception does not escape `onMessage`; when the body does
not throw, its own response is returned. -/
theorem c9_top_level_catch (doc : Doc) (msg : JSVal) :
    (∀ e, onMessageBody doc msg = .error e →
      onMessage doc msg = (some (.error e.message), doc) ∧
      (∀ fs, ¬(Response.error e.message = .fields fs)) ∧
      (∀ u s, ¬(Response.error e.message = .counts u s))) ∧
    (∀ r, onMessageBody doc msg = .ok r → onMessage doc msg = r) := by
  constructor
  · intro e he
    refine ⟨?_, fun fs => by simp, fun u s => by simp⟩
    unfold onMessage
    rw [he]
  · intro r hr
    unfold onMessage
    rw [hr]

theorem c9_top_level_catch_witness :
    onMessage sampleDoc (JSVal.mkObj [("type", .str "APPLY_MAPPINGS"), ("mappings", .num 5)]) =
      (some (.error "v is not iterable"), sampleDoc) :=
  ((c9_top_level_catch sampleDoc
      (JSVal.mkObj [("type", .str "APPLY_MAPPINGS"), ("mappings", .num 5)])).1
    ⟨"v is not iterable"⟩ rfl).1

end PawPaw
